import Mathlib

/-!
Verification of the SolarEdge data-downloader (`SE_API2.py`) against its
natural-language specification.  The Python program is shallowly embedded:
JSON documents become the inductive type `Json`, Python `dict`s become
insertion-ordered association lists, and each operation of the app
(credential check, API-error classification, per-endpoint response
flattening, CSV packaging, site-table construction, file naming) becomes an
executable Lean function translated from the source.
-/

/-- JSON values as returned by the monitoring API.  Numbers are modelled as
integers (the claims under study never depend on float formatting). -/
inductive Json where
  | null : Json
  | bool (b : Bool) : Json
  | num (n : Int) : Json
  | str (s : String) : Json
  | arr (elems : List Json) : Json
  | obj (entries : List (String × Json)) : Json

mutual

/-- Decidable equality of JSON values (written by hand: `deriving` does not
handle the nested `List` occurrences). -/
def jsonDecEq : (a b : Json) → Decidable (a = b)
  | .null, .null => isTrue rfl
  | .null, .bool _ => isFalse (fun h => Json.noConfusion h)
  | .null, .num _ => isFalse (fun h => Json.noConfusion h)
  | .null, .str _ => isFalse (fun h => Json.noConfusion h)
  | .null, .arr _ => isFalse (fun h => Json.noConfusion h)
  | .null, .obj _ => isFalse (fun h => Json.noConfusion h)
  | .bool _, .null => isFalse (fun h => Json.noConfusion h)
  | .bool x, .bool y =>
    match decEq x y with
    | isTrue h => isTrue (by rw [h])
    | isFalse h => isFalse (by intro hh; injection hh; exact h (by assumption))
  | .bool _, .num _ => isFalse (fun h => Json.noConfusion h)
  | .bool _, .str _ => isFalse (fun h => Json.noConfusion h)
  | .bool _, .arr _ => isFalse (fun h => Json.noConfusion h)
  | .bool _, .obj _ => isFalse (fun h => Json.noConfusion h)
  | .num _, .null => isFalse (fun h => Json.noConfusion h)
  | .num _, .bool _ => isFalse (fun h => Json.noConfusion h)
  | .num x, .num y =>
    match decEq x y with
    | isTrue h => isTrue (by rw [h])
    | isFalse h => isFalse (by intro hh; injection hh; exact h (by assumption))
  | .num _, .str _ => isFalse (fun h => Json.noConfusion h)
  | .num _, .arr _ => isFalse (fun h => Json.noConfusion h)
  | .num _, .obj _ => isFalse (fun h => Json.noConfusion h)
  | .str _, .null => isFalse (fun h => Json.noConfusion h)
  | .str _, .bool _ => isFalse (fun h => Json.noConfusion h)
  | .str _, .num _ => isFalse (fun h => Json.noConfusion h)
  | .str x, .str y =>
    match decEq x y with
    | isTrue h => isTrue (by rw [h])
    | isFalse h => isFalse (by intro hh; injection hh; exact h (by assumption))
  | .str _, .arr _ => isFalse (fun h => Json.noConfusion h)
  | .str _, .obj _ => isFalse (fun h => Json.noConfusion h)
  | .arr _, .null => isFalse (fun h => Json.noConfusion h)
  | .arr _, .bool _ => isFalse (fun h => Json.noConfusion h)
  | .arr _, .num _ => isFalse (fun h => Json.noConfusion h)
  | .arr _, .str _ => isFalse (fun h => Json.noConfusion h)
  | .arr xs, .arr ys =>
    match jsonListDecEq xs ys with
    | isTrue h => isTrue (by rw [h])
    | isFalse h => isFalse (by intro hh; injection hh; exact h (by assumption))
  | .arr _, .obj _ => isFalse (fun h => Json.noConfusion h)
  | .obj _, .null => isFalse (fun h => Json.noConfusion h)
  | .obj _, .bool _ => isFalse (fun h => Json.noConfusion h)
  | .obj _, .num _ => isFalse (fun h => Json.noConfusion h)
  | .obj _, .str _ => isFalse (fun h => Json.noConfusion h)
  | .obj _, .arr _ => isFalse (fun h => Json.noConfusion h)
  | .obj xs, .obj ys =>
    match jsonObjDecEq xs ys with
    | isTrue h => isTrue (by rw [h])
    | isFalse h => isFalse (by intro hh; injection hh; exact h (by assumption))

/-- Decidable equality of JSON value lists. -/
def jsonListDecEq : (a b : List Json) → Decidable (a = b)
  | [], [] => isTrue rfl
  | [], _ :: _ => isFalse (fun h => List.noConfusion h)
  | _ :: _, [] => isFalse (fun h => List.noConfusion h)
  | x :: xs, y :: ys =>
    match jsonDecEq x y with
    | isFalse h => isFalse (by intro hh; injection hh; exact h (by assumption))
    | isTrue h1 =>
      match jsonListDecEq xs ys with
      | isTrue h2 => isTrue (by rw [h1, h2])
      | isFalse h2 => isFalse (by intro hh; injection hh; exact h2 (by assumption))

/-- Decidable equality of JSON object entry lists. -/
def jsonObjDecEq : (a b : List (String × Json)) → Decidable (a = b)
  | [], [] => isTrue rfl
  | [], _ :: _ => isFalse (fun h => List.noConfusion h)
  | _ :: _, [] => isFalse (fun h => List.noConfusion h)
  | (k, v) :: xs, (k2, v2) :: ys =>
    match decEq k k2 with
    | isFalse h =>
      isFalse (by
        intro hh
        injection hh with hh1 hh2
        exact h (congrArg Prod.fst hh1))
    | isTrue hk =>
      match jsonDecEq v v2 with
      | isFalse h =>
        isFalse (by
          intro hh
          injection hh with hh1 hh2
          exact h (congrArg Prod.snd hh1))
      | isTrue hv =>
        match jsonObjDecEq xs ys with
        | isTrue ht => isTrue (by rw [hk, hv, ht])
        | isFalse ht => isFalse (by intro hh; injection hh; exact ht (by assumption))

end

instance : DecidableEq Json := jsonDecEq

/-- A Python `dict` with string keys: an insertion-ordered association list. -/
abbrev Dict := List (String × Json)

/-- Lookup in an association list (first match), like `d[k]` / `d.get(k)`. -/
def dlookup {α β : Type} [DecidableEq α] : List (α × β) → α → Option β
  | [], _ => none
  | (k, v) :: t, key => if k = key then some v else dlookup t key

/-- Remove the entry for a key, like Python's `d.pop(k)` (dict keys are
unique, so removing the first occurrence models `pop`). -/
def eraseKey {α β : Type} [DecidableEq α] : List (α × β) → α → List (α × β)
  | [], _ => []
  | (k, v) :: t, key => if k = key then t else (k, v) :: eraseKey t key

/-- Set a key, like `d[k] = v`: overwrite in place if present (keeping the
key's position, as Python dicts do), append at the end otherwise. -/
def setKey {α β : Type} [DecidableEq α] : List (α × β) → α → β → List (α × β)
  | [], key, val => [(key, val)]
  | (k, v) :: t, key, val =>
    if k = key then (k, val) :: t else (k, v) :: setKey t key val

/-- Python's `d.update(kvs)` / `{**d, **kvs}`: set each new entry in order. -/
def dictUpdate {α β : Type} [DecidableEq α]
    (d : List (α × β)) (kvs : List (α × β)) : List (α × β) :=
  kvs.foldl (fun acc kv => setKey acc kv.1 kv.2) d

/-- Python truthiness of a JSON value (`if api_data and ...`). -/
def truthy : Json → Bool
  | .null => false
  | .bool b => b
  | .num n => n != 0
  | .str s => !s.isEmpty
  | .arr xs => !xs.isEmpty
  | .obj kvs => !kvs.isEmpty

/-- The entries of a JSON object, `[]` for any other value. -/
def objEntriesD : Json → Dict
  | .obj d => d
  | _ => []

/-- Python's `j.get(k)` with default `None`. -/
def jgetD (j : Json) (k : String) : Json :=
  (dlookup (objEntriesD j) k).getD .null

/-- Python's `j.get(k, [])` where the caller then iterates the result:
yields the array's elements, `[]` when missing or not an array. -/
def jgetArrD (j : Json) (k : String) : List Json :=
  match dlookup (objEntriesD j) k with
  | some (.arr xs) => xs
  | _ => []

/-- ASCII lowercase of one character, as Python's `str.lower` acts on the
ASCII range used by this program. -/
def lowerChar (c : Char) : Char :=
  if 'A' ≤ c ∧ c ≤ 'Z' then Char.ofNat (c.toNat + 32) else c

/-- Python's `s.lower()` (ASCII). -/
def pyLower (s : String) : String := ⟨s.data.map lowerChar⟩

/-- Python's `s.replace(" ", "_")`: the pattern is a single character, so
this is a character map. -/
def replaceSpaces (s : String) : String :=
  ⟨s.data.map (fun c => if c = ' ' then '_' else c)⟩

/-- Does `hay` start with `needle`?  (Boolean, over character lists.) -/
def leadsWith : List Char → List Char → Bool
  | [], _ => true
  | _ :: _, [] => false
  | a :: as, b :: bs => a = b && leadsWith as bs

/-- Python's `needle in hay` substring test, over character lists. -/
def containsSub : List Char → List Char → Bool
  | [], needle => needle.isEmpty
  | c :: t, needle => leadsWith needle (c :: t) || containsSub t needle

/-- Python's `list.index(x)` returning the first index, `none` when absent
(the `ValueError` case). -/
def pyIndex : List String → String → Option Nat
  | [], _ => none
  | x :: t, u => if x = u then some 0 else (pyIndex t u).map (· + 1)

/-- The credential check of `check_login`: the submitted username is
lowercased, looked up in the configured username list, and the password is
compared with the entry at the same index of the parallel password list;
a missing username (`ValueError`) or an index beyond the password list
(`IndexError`) both yield `false`. -/
def check_login (usernames passwords : List String)
    (username password : String) : Bool :=
  let u := pyLower username
  match pyIndex usernames u with
  | some i =>
    match passwords[i]? with
    | some q => q == password
    | none => false
  | none => false

/-- The session effect of `check_login`: on success the session flag
`authenticated` is set to `true`; on failure it is left unchanged.
Returns (result, new flag). -/
def loginSession (usernames passwords : List String)
    (username password : String) (authenticated : Bool) : Bool × Bool :=
  let ok := check_login usernames passwords username password
  (ok, if ok then true else authenticated)

/-- A failed API call as observed by the `except` block of `make_api_call`:
either an HTTP error response (status code and body text) or a
transport-level failure with no response at all. -/
inductive ApiFailure where
  | httpResponse (status : Nat) (body : String) : ApiFailure
  | noResponse : ApiFailure
deriving DecidableEq

/-- The user-facing classification of a failed API call. -/
inductive ApiError where
  | dateRangeTooLong : ApiError
  | httpError (status : Nat) : ApiError
  | networkError : ApiError
deriving DecidableEq

/-- Error classification of `make_api_call`: a 403 whose lowercased body
contains both "date range" and "maximum" is the date-range error; any other
error response is generic with its status code; no response at all is a
network error. -/
def classifyFailure : ApiFailure → ApiError
  | .httpResponse status body =>
    let t := (pyLower body).data
    if status == 403 && containsSub t "date range".data
        && containsSub t "maximum".data then
      .dateRangeTooLong
    else
      .httpError status
  | .noResponse => .networkError

example : check_login ["alice", "bob"] ["pw1", "pw2"] "Alice" "pw1" = true := by decide
example : check_login ["alice", "bob"] ["pw1", "pw2"] "alice" "pw2" = false := by decide
example : check_login ["alice", "bob"] ["pw1"] "bob" "pw2" = false := by decide
example : classifyFailure (.httpResponse 403 "Date RANGE exceeds the Maximum") = .dateRangeTooLong := by decide
example : classifyFailure (.httpResponse 403 "forbidden") = .httpError 403 := by decide
example : classifyFailure .noResponse = .networkError := by decide

/-! ### Export Packager: CSV writing (`create_csv_string`) and CSV parsing -/

mutual

/-- Python's `str()` of a container value, used by the `csv` writer for
non-scalar cells (string escaping inside `repr` is not exercised by any
claim). -/
def pyRepr : Json → String
  | .null => "None"
  | .bool true => "True"
  | .bool false => "False"
  | .num n => toString n
  | .str s => "\x27" ++ s ++ "\x27"
  | .arr xs => "[" ++ String.intercalate ", " (pyReprList xs) ++ "]"
  | .obj kvs => "\x7b" ++ String.intercalate ", " (pyReprConts kvs) ++ "\x7d"

/-- `pyRepr` over a list of values. -/
def pyReprList : List Json → List String
  | [] => []
  | x :: t => pyRepr x :: pyReprList t

/-- `pyRepr` over object entries. -/
def pyReprConts : List (String × Json) → List String
  | [] => []
  | (k, v) :: t => ("\x27" ++ k ++ "\x27: " ++ pyRepr v) :: pyReprConts t

end

/-- How Python's `csv` writer renders one cell value: `None` becomes the
empty string, booleans and numbers go through `str()`, strings are written
as they are. -/
def cellValueStr : Json → String
  | .null => ""
  | .bool true => "True"
  | .bool false => "False"
  | .num n => toString n
  | .str s => s
  | .arr xs => pyRepr (.arr xs)
  | .obj kvs => pyRepr (.obj kvs)

/-- The cell `DictWriter` emits for field `f` of a row: the rendered value,
or the default `restval` (the empty string) when the key is absent.  Keys of
the row outside the field list are never consulted (`extrasaction='ignore'`). -/
def renderCell (row : Dict) (f : String) : String :=
  match dlookup row f with
  | some v => cellValueStr v
  | none => ""

/-- Characters that force quoting under `QUOTE_MINIMAL`: the delimiter, the
quote character, and the characters of the line terminator `\r\n`. -/
def specialChar (c : Char) : Bool :=
  c = ',' || c = '\"' || c = '\r' || c = '\n'

/-- Does a cell need quoting? -/
def needsQuote (s : List Char) : Bool := s.any specialChar

/-- Double every quote character (the body of a quoted cell). -/
def escQuotes : List Char → List Char
  | [] => []
  | c :: t => if c = '\"' then '\"' :: '\"' :: escQuotes t else c :: escQuotes t

/-- Format one cell under `QUOTE_MINIMAL`. -/
def escCell (s : List Char) : List Char :=
  if needsQuote s then '\"' :: (escQuotes s ++ ['\"']) else s

/-- Join formatted cells with the `,` delimiter. -/
def joinComma : List (List Char) → List Char
  | [] => []
  | [c] => escCell c
  | c :: t => escCell c ++ ',' :: joinComma t

/-- One CSV record: joined cells plus the `\r\n` line terminator. -/
def recordChars (cells : List (List Char)) : List Char :=
  joinComma cells ++ ['\r', '\n']

/-- A whole CSV document from its records. -/
def writeAll : List (List (List Char)) → List Char
  | [] => []
  | r :: t => recordChars r ++ writeAll t

/-- The model of `create_csv_string(data, fieldnames)`: header record from
the field list, then one record per row in input order, each row projected
to the field list (missing keys as empty cells, extra keys ignored). -/
def create_csv_string (data : List Dict) (fieldnames : List String) : String :=
  ⟨writeAll ((fieldnames.map String.data) ::
      data.map (fun row => fieldnames.map (fun f => (renderCell row f).data)))⟩

/-- States of the CSV reader: start of a cell, inside an unquoted cell,
inside a quoted cell, just after a closing quote, and just after a `\r`
(carrying the finished record). -/
inductive PMode where
  | start : PMode
  | unq : PMode
  | q : PMode
  | qend : PMode
  | cr (pending : List (List Char)) : PMode

/-- The CSV reader as a state machine over the remaining characters.
`cur` is the cell being read, `row` the cells of the current record,
`rows` the finished records.  A blank line yields an empty record, as
Python's `csv.reader` does; a stray `\r` or an unterminated quote is a
parse error. -/
def csvRun : PMode → List Char → List (List Char) → List (List (List Char)) →
    List Char → Option (List (List (List Char)))
  | .start, cur, row, rows, [] =>
    if row.isEmpty then some rows else some (rows ++ [row ++ [cur]])
  | .unq, cur, row, rows, [] => some (rows ++ [row ++ [cur]])
  | .qend, cur, row, rows, [] => some (rows ++ [row ++ [cur]])
  | .q, _, _, _, [] => none
  | .cr _, _, _, _, [] => none
  | .start, cur, row, rows, c :: rest =>
    if c = '\"' then csvRun .q cur row rows rest
    else if c = ',' then csvRun .start [] (row ++ [cur]) rows rest
    else if c = '\r' then
      csvRun (.cr (if row.isEmpty then [] else row ++ [cur])) [] [] rows rest
    else if c = '\n' then
      csvRun .start [] [] (rows ++ [if row.isEmpty then [] else row ++ [cur]]) rest
    else csvRun .unq (cur ++ [c]) row rows rest
  | .unq, cur, row, rows, c :: rest =>
    if c = ',' then csvRun .start [] (row ++ [cur]) rows rest
    else if c = '\r' then csvRun (.cr (row ++ [cur])) [] [] rows rest
    else if c = '\n' then csvRun .start [] [] (rows ++ [row ++ [cur]]) rest
    else csvRun .unq (cur ++ [c]) row rows rest
  | .q, cur, row, rows, c :: rest =>
    if c = '\"' then csvRun .qend cur row rows rest
    else csvRun .q (cur ++ [c]) row rows rest
  | .qend, cur, row, rows, c :: rest =>
    if c = '\"' then csvRun .q (cur ++ ['\"']) row rows rest
    else if c = ',' then csvRun .start [] (row ++ [cur]) rows rest
    else if c = '\r' then csvRun (.cr (row ++ [cur])) [] [] rows rest
    else if c = '\n' then csvRun .start [] [] (rows ++ [row ++ [cur]]) rest
    else none
  | .cr pending, _, _, rows, c :: rest =>
    if c = '\n' then csvRun .start [] [] (rows ++ [pending]) rest
    else none

/-- Parse a CSV document into records of cells. -/
def parseCsvChars (cs : List Char) : Option (List (List (List Char))) :=
  csvRun .start [] [] [] cs

/-- Parse a CSV document given as a string. -/
def parseCsvString (s : String) : Option (List (List String)) :=
  (parseCsvChars s.data).map (fun rs => rs.map (fun r => r.map (fun c => ⟨c⟩)))

example : create_csv_string [[("a", .str "x")], []] ["a"] = "a\r\nx\r\n\r\n" := rfl
example :
    parseCsvString "a,b\r\n\"x,\"\"y\",\r\n" = some [["a", "b"], ["x,\"y", ""]] := rfl
example : parseCsvString "\r\n" = some [[]] := rfl
example :
    create_csv_string [[("a", .str "x,\"y"), ("z", .num 3)], [("b", .null)]] ["a", "b"] =
      "a,b\r\n\"x,\"\"y\",\r\n,\r\n" := rfl

/-! ### Response Flattener (per-operation rules of `run_app`) -/

/-- Concatenation of a family of lists (Python's nested `for` loops that
append to `processed_data`). -/
def listFlatMap {α β : Type} (f : α → List β) : List α → List β
  | [] => []
  | x :: t => f x ++ listFlatMap f t

/-- String order used by Python's `sorted`: lexicographic by code point,
expressed through the structural list order of core (so that it evaluates);
`strLe_iff` below identifies it with the ambient `≤` on `String`. -/
def strLe (a b : String) : Prop := ¬ List.lt b.data a.data

instance strLe.decRel : DecidableRel strLe := fun a b =>
  @instDecidableNot _ (List.hasDecidableLt b.data a.data)

/-- Python's `sorted` on strings (code-point order, stable). -/
def sortStr (l : List String) : List String :=
  List.insertionSort strLe l

/-- Python's `k.lower().replace(' ', '_')` used for the `uri_` keys. -/
def snakeKey (k : String) : String := replaceSpaces (pyLower k)

/-- One step of the SiteDetails flattening: when `key` maps to an object,
pop it and re-insert its members under prefixed names (`details.pop` +
`details.update`); otherwise leave the dict alone. -/
def flattenGroup (key : String) (pre : String → String) (d : Dict) : Dict :=
  match dlookup d key with
  | some (.obj sub) =>
    dictUpdate (eraseKey d key) (sub.map (fun kv => (pre kv.1, kv.2)))
  | _ => d

/-- The full SiteDetails dict transform: `location`, then `publicSettings`,
then `uris`, exactly in the source's order. -/
def flattenDetailsDict (d : Dict) : Dict :=
  flattenGroup "uris" (fun k => "uri_" ++ snakeKey k)
    (flattenGroup "publicSettings" (fun k => "public_" ++ k)
      (flattenGroup "location" (fun k => "location_" ++ k) d))

/-- Result of one flattening branch of `run_app`: the raw response as it
stands after the branch ran (the Python code mutates `api_data` in place,
so this can differ from the input), the processed rows and the field list. -/
structure FlatOut where
  rawAfter : Json
  rows : List Dict
  fields : List String
deriving DecidableEq

/-- The "Site Details" branch.  The branch mutates the `details` dict inside
`api_data` (pop + update), which `rawAfter` records. -/
def flattenSiteDetails (raw : Json) : FlatOut :=
  match raw with
  | .obj entries =>
    match dlookup entries "details" with
    | some (.obj d) =>
      let d3 := flattenDetailsDict d
      ⟨.obj (setKey entries "details" (.obj d3)), [d3], sortStr (d3.map Prod.fst)⟩
    | _ => ⟨raw, [], []⟩
  | _ => ⟨raw, [], []⟩

/-- Python's `{**base, **v}` for an object element `v` (rows of the
energy/power/meters branches). -/
def mergeObj (base : Dict) (v : Json) : Dict :=
  match v with
  | .obj kvs => dictUpdate base kvs
  | _ => base

/-- The "Site Energy" / "Site Power" branch, parametrised by the response
key (`"energy"` or `"power"`).  No mutation happens here. -/
def flattenValues (url : String) (raw : Json) : FlatOut :=
  match raw with
  | .obj entries =>
    match dlookup entries url with
    | some (.obj parent) =>
      match dlookup parent "values" with
      | some (.arr vs) =>
        if vs.isEmpty then ⟨raw, [], []⟩
        else
          let base : Dict :=
            [("timeUnit", (dlookup parent "timeUnit").getD .null),
             ("unit", (dlookup parent "unit").getD .null)]
          ⟨raw, vs.map (mergeObj base), ["date", "value", "timeUnit", "unit"]⟩
      | _ => ⟨raw, [], []⟩
    | _ => ⟨raw, [], []⟩
  | _ => ⟨raw, [], []⟩

/-- The "Get Sensor List" branch. -/
def flattenSensorList (raw : Json) : FlatOut :=
  match raw with
  | .obj entries =>
    match dlookup entries "SiteSensors" with
    | some (.obj ss) =>
      match dlookup ss "list" with
      | some (.arr gws) =>
        if gws.isEmpty then ⟨raw, [], []⟩
        else
          let rows := listFlatMap (fun gw =>
            (jgetArrD gw "sensors").map (fun sensor =>
              ([("gateway", jgetD gw "connectedTo"), ("name", jgetD sensor "name"),
                ("measurement", jgetD sensor "measurement"),
                ("type", jgetD sensor "type")] : Dict))) gws
          ⟨raw, rows,
            if rows.isEmpty then [] else ["gateway", "name", "measurement", "type"]⟩
      | _ => ⟨raw, [], []⟩
    | _ => ⟨raw, [], []⟩
  | _ => ⟨raw, [], []⟩

/-- The rows produced for one gateway of the "Get Sensor Data" branch:
`telemetry.pop('date', None)` then one row per remaining field. -/
def gwRows (gw : Json) : List Dict :=
  let gname := jgetD gw "connectedTo"
  listFlatMap (fun t =>
    match t with
    | .obj td =>
      let entryDate := (dlookup td "date").getD .null
      (eraseKey td "date").map (fun kv =>
        ([("gateway", gname), ("date", entryDate),
          ("measurement_type", .str kv.1), ("value", kv.2)] : Dict))
    | _ => []) (jgetArrD gw "telemetries")

/-- A telemetry entry after `telemetry.pop('date', None)` ran on it. -/
def stripDate (t : Json) : Json :=
  match t with
  | .obj td => .obj (eraseKey td "date")
  | _ => t

/-- A gateway object after the Sensor Data branch mutated its telemetry
entries in place. -/
def gwAfter (gw : Json) : Json :=
  match gw with
  | .obj gd =>
    match dlookup gd "telemetries" with
    | some (.arr ts) => .obj (setKey gd "telemetries" (.arr (ts.map stripDate)))
    | _ => gw
  | _ => gw

/-- The "Get Sensor Data" branch.  `pop` mutates each telemetry dict inside
`api_data`, which `rawAfter` records. -/
def flattenSensorData (raw : Json) : FlatOut :=
  match raw with
  | .obj entries =>
    match dlookup entries "siteSensors" with
    | some (.obj ss) =>
      match dlookup ss "data" with
      | some (.arr gws) =>
        if gws.isEmpty then ⟨raw, [], []⟩
        else
          let rows := listFlatMap gwRows gws
          ⟨.obj (setKey entries "siteSensors"
              (.obj (setKey ss "data" (.arr (gws.map gwAfter))))),
            rows,
            if rows.isEmpty then [] else ["gateway", "date", "measurement_type", "value"]⟩
      | _ => ⟨raw, [], []⟩
    | _ => ⟨raw, [], []⟩
  | _ => ⟨raw, [], []⟩

/-- The "Get Meters Data" branch. -/
def flattenMeters (raw : Json) : FlatOut :=
  match raw with
  | .obj entries =>
    match dlookup entries "meterEnergyDetails" with
    | some (.obj med) =>
      match dlookup med "meters" with
      | some (.arr meters) =>
        if meters.isEmpty then ⟨raw, [], []⟩
        else
          let base : Dict :=
            [("timeUnit", (dlookup med "timeUnit").getD .null),
             ("unit", (dlookup med "unit").getD .null)]
          let rows := listFlatMap (fun meter =>
            (jgetArrD meter "values").map (fun ve =>
              mergeObj (dictUpdate base
                [("meterSerialNumber", jgetD meter "meterSerialNumber"),
                 ("model", jgetD meter "model"),
                 ("meterType", jgetD meter "meterType")]) ve)) meters
          ⟨raw, rows,
            if rows.isEmpty then []
            else ["date", "value", "meterSerialNumber", "model", "meterType",
                  "timeUnit", "unit"]⟩
      | _ => ⟨raw, [], []⟩
    | _ => ⟨raw, [], []⟩
  | _ => ⟨raw, [], []⟩

/-- The six operations of the form. -/
inductive Operation where
  | siteDetails : Operation
  | siteEnergy : Operation
  | sitePower : Operation
  | sensorList : Operation
  | sensorData : Operation
  | metersData : Operation
deriving DecidableEq

/-- The UI label of each operation (the keys of `endpoint_descriptions`). -/
def opLabel : Operation → String
  | .siteDetails => "Site Details"
  | .siteEnergy => "Site Energy"
  | .sitePower => "Site Power"
  | .sensorList => "Get Sensor List"
  | .sensorData => "Get Sensor Data"
  | .metersData => "Get Meters Data"

/-- Whether the operation collects a `time_unit` parameter (line 152 of the
source: "Site Energy" and "Get Meters Data"). -/
def consumesTimeUnit : Operation → Bool
  | .siteEnergy => true
  | .metersData => true
  | _ => false

/-- The response key used by the energy/power branch. -/
def urlOf : Operation → String
  | .siteEnergy => "energy"
  | .sitePower => "power"
  | _ => ""

/-- The flattening rule of each operation. -/
def flattenOp : Operation → Json → FlatOut
  | .siteDetails => flattenSiteDetails
  | .siteEnergy => flattenValues "energy"
  | .sitePower => flattenValues "power"
  | .sensorList => flattenSensorList
  | .sensorData => flattenSensorData
  | .metersData => flattenMeters

/-! ### Form Controller outcome, site table, file naming -/

/-- Outcome of one "Generate" click after the API call: the download offer
(with the raw value as it stands when it is serialized, the rows and the
field list), silence after a failed call (the error was already shown by
`make_api_call`), or the "no data" warning. -/
inductive Outcome where
  | offered (rawAfter : Json) (rows : List Dict) (fields : List String) : Outcome
  | apiError : Outcome
  | noData : Outcome
deriving DecidableEq

/-- The download logic at the end of `run_app`: offer the files iff
`api_data` is truthy and `processed_data` is non-empty; `None` means the
call failed (message already shown); anything else warns "no data". -/
def generate (op : Operation) (r : Option Json) : Outcome :=
  match r with
  | none => .apiError
  | some raw =>
    let f := flattenOp op raw
    if truthy raw && !f.rows.isEmpty then .offered f.rawAfter f.rows f.fields
    else .noData

/-- The sort key of `sorted(site_list, key=lambda x: x['name'])`. -/
def siteName (j : Json) : String :=
  match jgetD j "name" with
  | .str s => s
  | _ => ""

/-- The comparison performed by `sorted(site_list, key=lambda x: x['name'])`. -/
def jsonNameLe (a b : Json) : Prop := strLe (siteName a) (siteName b)

instance jsonNameLe.decRel : DecidableRel jsonNameLe :=
  fun a b => strLe.decRel (siteName a) (siteName b)

/-- The fetched site list in ascending name order (Python's `sorted` is
stable; so is insertion sort). -/
def sortedSiteList (l : List Json) : List Json :=
  List.insertionSort jsonNameLe l

/-- The dict comprehension of `get_all_sites`:
`{site['name']: site['id'] for site in sorted(site_list, ...)}`. -/
def buildSiteTable (l : List Json) : List (Json × Json) :=
  (sortedSiteList l).foldl (fun acc s => setKey acc (jgetD s "name") (jgetD s "id")) []

/-- The fallback table of `get_all_sites`. -/
def noSitesTable : List (Json × Json) := [(.str "No sites found", .null)]

/-- The model of `get_all_sites`: its argument is the result of the list
call (`none` when `make_api_call` returned `None`).  The comprehension runs
when the data is truthy and has a `sites` object with a `site` key holding
an array; otherwise the fallback single-entry table is returned. -/
def get_all_sites (r : Option Json) : List (Json × Json) :=
  match r with
  | some raw =>
    if truthy raw then
      match raw with
      | .obj entries =>
        match dlookup entries "sites" with
        | some (.obj ss) =>
          match dlookup ss "site" with
          | some (.arr siteList) => buildSiteTable siteList
          | _ => noSitesTable
        | _ => noSitesTable
      | _ => noSitesTable
    else noSitesTable
  | none => noSitesTable

/-- The base filename of one successful Generate action (`base_filename` in
the source): site id, slugged operation label, optional lowercased time
unit, and the current date already formatted as MMDDYY. -/
def base_filename (siteId : String) (op : Operation)
    (timeUnit : String) (today : String) : String :=
  "solaredge_" ++ siteId ++ "_" ++ pyLower (replaceSpaces (opLabel op)) ++
    (if consumesTimeUnit op then "_" ++ pyLower timeUnit else "") ++ "_" ++ today

/-- Name of the processed CSV download. -/
def csv_filename (siteId : String) (op : Operation)
    (timeUnit : String) (today : String) : String :=
  base_filename siteId op timeUnit today ++ ".csv"

/-- Name of the raw JSON download. -/
def raw_filename (siteId : String) (op : Operation)
    (timeUnit : String) (today : String) : String :=
  base_filename siteId op timeUnit today ++ "_raw.json"

example :
    csv_filename "12345" .siteEnergy "DAY" "101226" =
      "solaredge_12345_site_energy_day_101226.csv" := rfl
example :
    raw_filename "7" .siteDetails "DAY" "101226" =
      "solaredge_7_site_details_101226_raw.json" := rfl
example :
    flattenOp .siteDetails
        (.obj [("details", .obj [("id", .num 1), ("location", .obj [("city", .str "X")])])]) =
      ⟨.obj [("details", .obj [("id", .num 1), ("location_city", .str "X")])],
        [[("id", .num 1), ("location_city", .str "X")]],
        ["id", "location_city"]⟩ := rfl
example :
    (flattenOp .sensorData
        (.obj [("siteSensors", .obj [("data", .arr
          [.obj [("connectedTo", .str "GW1"), ("telemetries", .arr
            [.obj [("date", .str "2024-01-01"), ("temp", .num 5), ("irr", .num 100)]])]])])])).rows =
      [[("gateway", .str "GW1"), ("date", .str "2024-01-01"),
        ("measurement_type", .str "temp"), ("value", .num 5)],
       [("gateway", .str "GW1"), ("date", .str "2024-01-01"),
        ("measurement_type", .str "irr"), ("value", .num 100)]] := rfl
example :
    get_all_sites (some (.obj [("sites", .obj [("site", .arr [])])])) = [] := rfl
example :
    get_all_sites (some (.obj [("sites", .obj [("site", .arr
      [.obj [("name", .str "A"), ("id", .num 1)],
       .obj [("name", .str "A"), ("id", .num 2)]])])])) = [(.str "A", .num 2)] := rfl

/-! ### Lemmas about the dict operations -/

theorem dlookup_eq_none_iff {α β : Type} [DecidableEq α] (d : List (α × β)) (k : α) :
    dlookup d k = none ↔ k ∉ d.map Prod.fst := by
  induction d with
  | nil => simp [dlookup]
  | cons p t ih =>
    obtain ⟨a, b⟩ := p
    by_cases h : a = k
    · simp [dlookup, h]
    · simp [dlookup, h, ih, Ne.symm h]

theorem dlookup_setKey_self {α β : Type} [DecidableEq α]
    (d : List (α × β)) (k : α) (v : β) :
    dlookup (setKey d k v) k = some v := by
  induction d with
  | nil => simp [setKey, dlookup]
  | cons p t ih =>
    obtain ⟨a, b⟩ := p
    by_cases h : a = k
    · simp [setKey, h, dlookup]
    · simp [setKey, h, dlookup, ih]

theorem dlookup_setKey_ne {α β : Type} [DecidableEq α]
    (d : List (α × β)) (k : α) (v : β) (k2 : α) (hne : k2 ≠ k) :
    dlookup (setKey d k v) k2 = dlookup d k2 := by
  induction d with
  | nil => simp [setKey, dlookup, Ne.symm hne]
  | cons p t ih =>
    obtain ⟨a, b⟩ := p
    by_cases h : a = k
    · subst h
      simp [setKey, dlookup, Ne.symm hne]
    · simp only [setKey, if_neg h]
      by_cases h2 : a = k2
      · simp [dlookup, h2]
      · simp [dlookup, h2, ih]

theorem dlookup_eraseKey_ne {α β : Type} [DecidableEq α]
    (d : List (α × β)) (k : α) (k2 : α) (hne : k2 ≠ k) :
    dlookup (eraseKey d k) k2 = dlookup d k2 := by
  induction d with
  | nil => simp [eraseKey]
  | cons p t ih =>
    obtain ⟨a, b⟩ := p
    by_cases h : a = k
    · subst h
      simp [eraseKey, dlookup, Ne.symm hne]
    · by_cases h2 : a = k2
      · simp [eraseKey, h, dlookup, h2, hne]
      · simp [eraseKey, h, dlookup, h2, ih]

theorem dlookup_eraseKey_self {α β : Type} [DecidableEq α]
    (d : List (α × β)) (k : α) (hnd : (d.map Prod.fst).Nodup) :
    dlookup (eraseKey d k) k = none := by
  induction d with
  | nil => simp [eraseKey, dlookup]
  | cons p t ih =>
    obtain ⟨a, b⟩ := p
    simp only [List.map_cons, List.nodup_cons] at hnd
    by_cases h : a = k
    · subst h
      simp only [eraseKey, if_pos rfl]
      exact (dlookup_eq_none_iff t a).mpr hnd.1
    · simp [eraseKey, h, dlookup, ih hnd.2]

theorem dictUpdate_cons {α β : Type} [DecidableEq α]
    (d : List (α × β)) (p : α × β) (t : List (α × β)) :
    dictUpdate d (p :: t) = dictUpdate (setKey d p.1 p.2) t := rfl

theorem getLast?_cons_of_ne_nil {α : Type} (p : α) (l : List α) (h : l ≠ []) :
    (p :: l).getLast? = l.getLast? := by
  cases l with
  | nil => exact absurd rfl h
  | cons a t => exact List.getLast?_cons_cons

/-- Where a key ends up after a whole `update`: the value of the last update
entry with that key, or the original binding when no update entry has it. -/
theorem dlookup_dictUpdate {α β : Type} [DecidableEq α]
    (kvs : List (α × β)) (d : List (α × β)) (k : α) :
    dlookup (dictUpdate d kvs) k =
      match (kvs.filter (fun p => p.1 == k)).getLast? with
      | some p => some p.2
      | none => dlookup d k := by
  induction kvs generalizing d with
  | nil => simp [dictUpdate]
  | cons p t ih =>
    rw [dictUpdate_cons, ih]
    by_cases hp : p.1 = k
    · have hf : (p :: t).filter (fun q => q.1 == k) =
          p :: t.filter (fun q => q.1 == k) := by
        simp [List.filter_cons, hp]
      rw [hf]
      cases hlast : (t.filter (fun q => q.1 == k)).getLast? with
      | some q =>
        have hne : t.filter (fun q => q.1 == k) ≠ [] := by
          intro hnil
          rw [hnil] at hlast
          exact Option.noConfusion hlast
        rw [getLast?_cons_of_ne_nil p _ hne, hlast]
      | none =>
        have hnil : t.filter (fun q => q.1 == k) = [] :=
          List.getLast?_eq_none_iff.mp hlast
        rw [hnil]
        subst hp
        simp [dlookup_setKey_self]
    · have hf : (p :: t).filter (fun q => q.1 == k) =
          t.filter (fun q => q.1 == k) := by
        simp [List.filter_cons, hp]
      rw [hf]
      cases hlast : (t.filter (fun q => q.1 == k)).getLast? with
      | some q => rfl
      | none => simp [dlookup_setKey_ne d p.1 p.2 k (fun h => hp h.symm)]

/-- In a dict with distinct keys, filtering on a present key yields exactly
its entry. -/
theorem filter_key_of_nodup {α β : Type} [DecidableEq α]
    (kvs : List (α × β)) (k : α) (v : β)
    (hnd : (kvs.map Prod.fst).Nodup) (hm : (k, v) ∈ kvs) :
    kvs.filter (fun p => p.1 == k) = [(k, v)] := by
  induction kvs with
  | nil => exact absurd hm (List.not_mem_nil _)
  | cons p t ih =>
    simp only [List.map_cons, List.nodup_cons] at hnd
    rcases List.mem_cons.mp hm with hh | ht
    · subst hh
      have hrest : t.filter (fun p => p.1 == k) = [] := by
        rw [List.filter_eq_nil_iff]
        intro q hq hbad
        have hq1 : q.1 = k := by simpa using hbad
        have hk : k ∈ t.map Prod.fst := hq1 ▸ List.mem_map_of_mem Prod.fst hq
        exact hnd.1 hk
      simp [List.filter_cons, hrest]
    · have hpk : p.1 ≠ k := by
        intro hbad
        have hk : k ∈ t.map Prod.fst := List.mem_map_of_mem Prod.fst ht
        exact hnd.1 (by rw [hbad]; exact hk)
      simp [List.filter_cons, hpk, ih hnd.2 ht]

theorem dlookup_dictUpdate_mem {α β : Type} [DecidableEq α]
    (d kvs : List (α × β)) (k : α) (v : β)
    (hnd : (kvs.map Prod.fst).Nodup) (hm : (k, v) ∈ kvs) :
    dlookup (dictUpdate d kvs) k = some v := by
  rw [dlookup_dictUpdate, filter_key_of_nodup kvs k v hnd hm]
  rfl

theorem dlookup_dictUpdate_ne {α β : Type} [DecidableEq α]
    (d kvs : List (α × β)) (k : α) (hk : ∀ p ∈ kvs, p.1 ≠ k) :
    dlookup (dictUpdate d kvs) k = dlookup d k := by
  rw [dlookup_dictUpdate]
  have : kvs.filter (fun p => p.1 == k) = [] := by
    rw [List.filter_eq_nil_iff]
    intro q hq hbad
    exact hk q hq (by simpa using hbad)
  rw [this]
  rfl

theorem mem_keys_setKey {α β : Type} [DecidableEq α]
    (d : List (α × β)) (k : α) (v : β) (k2 : α) :
    k2 ∈ (setKey d k v).map Prod.fst ↔ k2 ∈ d.map Prod.fst ∨ k2 = k := by
  induction d with
  | nil => simp [setKey]
  | cons p t ih =>
    obtain ⟨a, b⟩ := p
    by_cases h : a = k
    · subst h
      by_cases h2 : k2 = a <;> simp [setKey, h2]
    · simp [setKey, h, ih, or_assoc]

theorem nodup_keys_setKey {α β : Type} [DecidableEq α]
    (d : List (α × β)) (k : α) (v : β) (hnd : (d.map Prod.fst).Nodup) :
    ((setKey d k v).map Prod.fst).Nodup := by
  induction d with
  | nil => simp [setKey]
  | cons p t ih =>
    obtain ⟨a, b⟩ := p
    simp only [List.map_cons, List.nodup_cons] at hnd
    by_cases h : a = k
    · simp only [setKey, if_pos h, List.map_cons, List.nodup_cons]
      exact ⟨hnd.1, hnd.2⟩
    · simp only [setKey, if_neg h, List.map_cons, List.nodup_cons]
      refine ⟨fun hbad => ?_, ih hnd.2⟩
      rcases (mem_keys_setKey t k v a).mp hbad with hin | heq
      · exact hnd.1 hin
      · exact h heq

theorem nodup_keys_dictUpdate {α β : Type} [DecidableEq α]
    (d kvs : List (α × β)) (hnd : (d.map Prod.fst).Nodup) :
    ((dictUpdate d kvs).map Prod.fst).Nodup := by
  induction kvs generalizing d with
  | nil => exact hnd
  | cons p t ih =>
    rw [dictUpdate_cons]
    exact ih _ (nodup_keys_setKey d p.1 p.2 hnd)

theorem keys_eraseKey_sublist {α β : Type} [DecidableEq α]
    (d : List (α × β)) (k : α) :
    ((eraseKey d k).map Prod.fst).Sublist (d.map Prod.fst) := by
  induction d with
  | nil => simp [eraseKey]
  | cons p t ih =>
    obtain ⟨a, b⟩ := p
    by_cases h : a = k
    · simp only [eraseKey, if_pos h, List.map_cons]
      exact (List.sublist_cons_self a _)
    · simp only [eraseKey, if_neg h, List.map_cons]
      exact ih.cons₂ a

theorem nodup_keys_eraseKey {α β : Type} [DecidableEq α]
    (d : List (α × β)) (k : α) (hnd : (d.map Prod.fst).Nodup) :
    ((eraseKey d k).map Prod.fst).Nodup :=
  hnd.sublist (keys_eraseKey_sublist d k)

/-! ### Lemmas about strings, substrings and the sort order -/

theorem strLe_iff (a b : String) : strLe a b ↔ a ≤ b := by
  rw [String.le_iff_toList_le, ← not_lt]
  exact not_congr (List.lt_iff_lex_lt _ _)

theorem strLe_total : ∀ a b : String, strLe a b ∨ strLe b a := fun a b =>
  (le_total a b).imp (strLe_iff a b).mpr (strLe_iff b a).mpr

theorem strLe_trans {a b c : String} (h1 : strLe a b) (h2 : strLe b c) :
    strLe a c :=
  (strLe_iff a c).mpr (le_trans ((strLe_iff a b).mp h1) ((strLe_iff b c).mp h2))

theorem leadsWith_append (l r : List Char) : leadsWith l (l ++ r) = true := by
  induction l with
  | nil => rfl
  | cons c t ih => simp [leadsWith, ih]

/-- A string extending prefix `p` cannot equal a string that does not start
with `p`. -/
theorem append_ne_of_not_leads (p t : String)
    (h : leadsWith p.data t.data = false) (x : String) : p ++ x ≠ t := by
  intro he
  have hd : p.data ++ x.data = t.data := by
    rw [← String.data_append, he]
  rw [← hd, leadsWith_append] at h
  exact Bool.noConfusion h

/-- Strings extending prefixes with different first characters differ. -/
theorem append_ne_append_head (p q : String) (c d : Char)
    (hp : p.data.head? = some c) (hq : q.data.head? = some d) (hcd : c ≠ d)
    (x y : String) : p ++ x ≠ q ++ y := by
  intro he
  have hd : p.data ++ x.data = q.data ++ y.data := by
    rw [← String.data_append, ← String.data_append, he]
  cases hpd : p.data with
  | nil => rw [hpd] at hp; exact Option.noConfusion hp
  | cons c0 t0 =>
    cases hqd : q.data with
    | nil => rw [hqd] at hq; exact Option.noConfusion hq
    | cons d0 t1 =>
      rw [hpd] at hp
      rw [hqd] at hq
      rw [hpd, hqd] at hd
      simp only [List.cons_append, List.cons.injEq] at hd
      apply hcd
      have hc : c0 = c := by simpa using hp
      have hdd : d0 = d := by simpa using hq
      rw [← hc, ← hdd]
      exact hd.1

/-- Appending to a fixed prefix is injective. -/
theorem append_right_inj (p : String) {x y : String} (h : p ++ x = p ++ y) :
    x = y := by
  have hd : p.data ++ x.data = p.data ++ y.data := by
    rw [← String.data_append, ← String.data_append, h]
  exact String.ext (List.append_cancel_left hd)

theorem leadsWith_iff (needle hay : List Char) :
    leadsWith needle hay = true ↔ ∃ post, hay = needle ++ post := by
  induction needle generalizing hay with
  | nil => simp [leadsWith]
  | cons c t ih =>
    cases hay with
    | nil =>
      simp only [leadsWith, Bool.false_eq_true, false_iff]
      intro ⟨post, hpost⟩
      exact List.noConfusion hpost
    | cons a rest =>
      simp only [leadsWith, Bool.and_eq_true, decide_eq_true_eq, ih]
      constructor
      · rintro ⟨hca, post, hpost⟩
        exact ⟨post, by rw [hca, hpost]; rfl⟩
      · rintro ⟨post, hpost⟩
        simp only [List.cons_append, List.cons.injEq] at hpost
        exact ⟨hpost.1.symm, post, hpost.2⟩

/-- Correctness of the Python `in` (substring) test. -/
theorem containsSub_iff (hay needle : List Char) :
    containsSub hay needle = true ↔ ∃ pre post, hay = pre ++ needle ++ post := by
  induction hay with
  | nil =>
    simp only [containsSub, List.isEmpty_iff]
    constructor
    · intro h
      exact ⟨[], [], by simp [h]⟩
    · rintro ⟨pre, post, hsplit⟩
      rcases List.append_eq_nil.mp (List.append_eq_nil.mp hsplit.symm).1 with ⟨-, h2⟩
      exact h2
  | cons c t ih =>
    simp only [containsSub, Bool.or_eq_true, leadsWith_iff, ih]
    constructor
    · rintro (⟨post, hpost⟩ | ⟨pre, post, hsplit⟩)
      · exact ⟨[], post, by simpa using hpost⟩
      · exact ⟨c :: pre, post, by simp [hsplit]⟩
    · rintro ⟨pre, post, hsplit⟩
      cases pre with
      | nil =>
        exact Or.inl ⟨post, by simpa using hsplit⟩
      | cons p0 pt =>
        simp only [List.cons_append, List.cons.injEq] at hsplit
        exact Or.inr ⟨pt, post, hsplit.2⟩

/-- Correctness of the `list.index` model: the found index is the first
occurrence. -/
theorem pyIndex_iff (l : List String) (u : String) (i : Nat) :
    pyIndex l u = some i ↔
      l[i]? = some u ∧ ∀ j, j < i → l[j]? ≠ some u := by
  induction l generalizing i with
  | nil => simp [pyIndex]
  | cons x t ih =>
    by_cases hx : x = u
    · subst hx
      simp only [pyIndex, if_pos rfl]
      constructor
      · intro h
        have hi : i = 0 := (Option.some.inj h).symm
        subst hi
        exact ⟨by simp, fun j hj => absurd hj (Nat.not_lt_zero j)⟩
      · rintro ⟨hget, hfirst⟩
        cases i with
        | zero => rfl
        | succ n => exact absurd (by simp) (hfirst 0 (Nat.succ_pos n))
    · simp only [pyIndex, if_neg hx, Option.map_eq_some']
      cases i with
      | zero =>
        constructor
        · rintro ⟨a, -, hcontra⟩
          exact absurd hcontra (by omega)
        · rintro ⟨hget, -⟩
          exact absurd (by simpa using hget) hx
      | succ n =>
        constructor
        · rintro ⟨a, ha, han⟩
          have han2 : n = a := by omega
          subst han2
          rcases (ih n).mp ha with ⟨hget, hfirst⟩
          refine ⟨by simpa using hget, fun j hj => ?_⟩
          cases j with
          | zero =>
            simp only [List.getElem?_cons_zero]
            intro hbad
            exact hx (Option.some.inj hbad)
          | succ m =>
            have hm : m < n := by omega
            simpa using hfirst m hm
        · rintro ⟨hget, hfirst⟩
          refine ⟨n, (ih n).mpr ⟨by simpa using hget, fun j hj => ?_⟩, rfl⟩
          have hnext := hfirst (j + 1) (by omega)
          simpa using hnext

/-! ### The CSV writer/reader round trip -/

theorem csvRun_start_quote (cur : List Char) (row : List (List Char))
    (rows : List (List (List Char))) (rest : List Char) :
    csvRun .start cur row rows ('\"' :: rest) = csvRun .q cur row rows rest := by
  simp [csvRun]

theorem csvRun_start_comma (cur : List Char) (row : List (List Char))
    (rows : List (List (List Char))) (rest : List Char) :
    csvRun .start cur row rows (',' :: rest) =
      csvRun .start [] (row ++ [cur]) rows rest := by
  simp [csvRun]

theorem csvRun_start_crlf (cur : List Char) (row : List (List Char))
    (rows : List (List (List Char))) (rest : List Char) :
    csvRun .start cur row rows ('\r' :: '\n' :: rest) =
      csvRun .start [] [] (rows ++ [if row.isEmpty then [] else row ++ [cur]]) rest := by
  simp [csvRun]

theorem csvRun_start_other (c : Char) (h1 : c ≠ '\"') (h2 : c ≠ ',')
    (h3 : c ≠ '\r') (h4 : c ≠ '\n') (cur : List Char) (row : List (List Char))
    (rows : List (List (List Char))) (rest : List Char) :
    csvRun .start cur row rows (c :: rest) =
      csvRun .unq (cur ++ [c]) row rows rest := by
  simp [csvRun, h1, h2, h3, h4]

theorem csvRun_unq_comma (cur : List Char) (row : List (List Char))
    (rows : List (List (List Char))) (rest : List Char) :
    csvRun .unq cur row rows (',' :: rest) =
      csvRun .start [] (row ++ [cur]) rows rest := by
  simp [csvRun]

theorem csvRun_unq_crlf (cur : List Char) (row : List (List Char))
    (rows : List (List (List Char))) (rest : List Char) :
    csvRun .unq cur row rows ('\r' :: '\n' :: rest) =
      csvRun .start [] [] (rows ++ [row ++ [cur]]) rest := by
  simp [csvRun]

theorem csvRun_unq_other (c : Char) (h2 : c ≠ ',') (h3 : c ≠ '\r') (h4 : c ≠ '\n')
    (cur : List Char) (row : List (List Char))
    (rows : List (List (List Char))) (rest : List Char) :
    csvRun .unq cur row rows (c :: rest) =
      csvRun .unq (cur ++ [c]) row rows rest := by
  simp [csvRun, h2, h3, h4]

theorem csvRun_q_quote (cur : List Char) (row : List (List Char))
    (rows : List (List (List Char))) (rest : List Char) :
    csvRun .q cur row rows ('\"' :: rest) = csvRun .qend cur row rows rest := by
  simp [csvRun]

theorem csvRun_q_other (c : Char) (h1 : c ≠ '\"') (cur : List Char)
    (row : List (List Char)) (rows : List (List (List Char))) (rest : List Char) :
    csvRun .q cur row rows (c :: rest) = csvRun .q (cur ++ [c]) row rows rest := by
  simp [csvRun, h1]

theorem csvRun_qend_quote (cur : List Char) (row : List (List Char))
    (rows : List (List (List Char))) (rest : List Char) :
    csvRun .qend cur row rows ('\"' :: rest) =
      csvRun .q (cur ++ ['\"']) row rows rest := by
  simp [csvRun]

theorem csvRun_qend_comma (cur : List Char) (row : List (List Char))
    (rows : List (List (List Char))) (rest : List Char) :
    csvRun .qend cur row rows (',' :: rest) =
      csvRun .start [] (row ++ [cur]) rows rest := by
  simp [csvRun]

theorem csvRun_qend_crlf (cur : List Char) (row : List (List Char))
    (rows : List (List (List Char))) (rest : List Char) :
    csvRun .qend cur row rows ('\r' :: '\n' :: rest) =
      csvRun .start [] [] (rows ++ [row ++ [cur]]) rest := by
  simp [csvRun]

theorem csvRun_q_esc (cs : List Char) (acc : List Char) (row : List (List Char))
    (rows : List (List (List Char))) (rest : List Char) :
    csvRun .q acc row rows (escQuotes cs ++ '\"' :: rest) =
      csvRun .qend (acc ++ cs) row rows rest := by
  induction cs generalizing acc with
  | nil =>
    rw [show escQuotes [] = [] from rfl, List.nil_append, csvRun_q_quote]
    simp
  | cons c t ih =>
    by_cases hc : c = '\"'
    · subst hc
      rw [show escQuotes ('\"' :: t) = '\"' :: '\"' :: escQuotes t from rfl]
      rw [List.cons_append, List.cons_append, csvRun_q_quote, csvRun_qend_quote, ih]
      simp
    · rw [show escQuotes (c :: t) = c :: escQuotes t from by simp [escQuotes, hc]]
      rw [List.cons_append, csvRun_q_other c hc, ih]
      simp

theorem csvRun_unq_run (cs : List Char) (acc : List Char) (row : List (List Char))
    (rows : List (List (List Char))) (rest : List Char)
    (h : ∀ c ∈ cs, specialChar c = false) :
    csvRun .unq acc row rows (cs ++ rest) = csvRun .unq (acc ++ cs) row rows rest := by
  induction cs generalizing acc with
  | nil => simp
  | cons c t ih =>
    have hc := h c (List.mem_cons_self c t)
    simp only [specialChar, Bool.or_eq_false_iff, decide_eq_false_iff_not] at hc
    obtain ⟨⟨⟨h1, h2⟩, h3⟩, h4⟩ := hc
    rw [List.cons_append, csvRun_unq_other c h1 h3 h4,
      ih _ (fun x hx => h x (List.mem_cons_of_mem c hx))]
    simp

theorem csvRun_start_cell_comma (cell : List Char) (row : List (List Char))
    (rows : List (List (List Char))) (rest : List Char) :
    csvRun .start [] row rows (escCell cell ++ ',' :: rest) =
      csvRun .start [] (row ++ [cell]) rows rest := by
  by_cases hq : needsQuote cell
  · rw [show escCell cell = '\"' :: (escQuotes cell ++ ['\"']) from by
      simp [escCell, hq]]
    rw [List.cons_append, csvRun_start_quote, List.append_assoc,
      List.singleton_append, csvRun_q_esc, List.nil_append, csvRun_qend_comma]
  · rw [show escCell cell = cell from by simp [escCell, hq]]
    have hchars : ∀ c ∈ cell, specialChar c = false := by
      intro c hc
      by_contra hbad
      exact hq (List.any_eq_true.mpr ⟨c, hc, by
        cases hsc : specialChar c with
        | true => rfl
        | false => exact absurd hsc hbad⟩)
    cases cell with
    | nil => rw [List.nil_append, csvRun_start_comma]
    | cons c t =>
      have hc := hchars c (List.mem_cons_self c t)
      simp only [specialChar, Bool.or_eq_false_iff, decide_eq_false_iff_not] at hc
      obtain ⟨⟨⟨h1, h2⟩, h3⟩, h4⟩ := hc
      rw [List.cons_append, csvRun_start_other c h2 h1 h3 h4, List.nil_append,
        csvRun_unq_run t [c] row rows (',' :: rest)
          (fun x hx => hchars x (List.mem_cons_of_mem c hx)),
        csvRun_unq_comma]
      simp

theorem csvRun_start_cell_recend (cell : List Char) (row : List (List Char))
    (rows : List (List (List Char))) (rest : List Char)
    (hnb : ¬(row = [] ∧ cell = [])) :
    csvRun .start [] row rows (escCell cell ++ '\r' :: '\n' :: rest) =
      csvRun .start [] [] (rows ++ [row ++ [cell]]) rest := by
  by_cases hq : needsQuote cell
  · rw [show escCell cell = '\"' :: (escQuotes cell ++ ['\"']) from by
      simp [escCell, hq]]
    rw [List.cons_append, csvRun_start_quote, List.append_assoc,
      List.singleton_append, csvRun_q_esc, List.nil_append, csvRun_qend_crlf]
  · rw [show escCell cell = cell from by simp [escCell, hq]]
    have hchars : ∀ c ∈ cell, specialChar c = false := by
      intro c hc
      by_contra hbad
      exact hq (List.any_eq_true.mpr ⟨c, hc, by
        cases hsc : specialChar c with
        | true => rfl
        | false => exact absurd hsc hbad⟩)
    cases cell with
    | nil =>
      have hrow : row ≠ [] := fun hr => hnb ⟨hr, rfl⟩
      rw [List.nil_append, csvRun_start_crlf]
      simp [hrow]
    | cons c t =>
      have hc := hchars c (List.mem_cons_self c t)
      simp only [specialChar, Bool.or_eq_false_iff, decide_eq_false_iff_not] at hc
      obtain ⟨⟨⟨h1, h2⟩, h3⟩, h4⟩ := hc
      rw [List.cons_append, csvRun_start_other c h2 h1 h3 h4, List.nil_append,
        csvRun_unq_run t [c] row rows ('\r' :: '\n' :: rest)
          (fun x hx => hchars x (List.mem_cons_of_mem c hx)),
        csvRun_unq_crlf]
      simp

theorem csvRun_cells (cells : List (List Char)) (row : List (List Char))
    (rows : List (List (List Char))) (rest : List Char)
    (hne : cells ≠ []) (hok : row ≠ [] ∨ cells ≠ [[]]) :
    csvRun .start [] row rows (joinComma cells ++ '\r' :: '\n' :: rest) =
      csvRun .start [] [] (rows ++ [row ++ cells]) rest := by
  induction cells generalizing row with
  | nil => exact absurd rfl hne
  | cons c t ih =>
    cases t with
    | nil =>
      have hc : ¬(row = [] ∧ c = []) := by
        rintro ⟨hr, hcc⟩
        rcases hok with h | h
        · exact h hr
        · exact h (by rw [hcc])
      simpa [joinComma] using csvRun_start_cell_recend c row rows rest hc
    | cons c2 t2 =>
      have hj : joinComma (c :: c2 :: t2) = escCell c ++ ',' :: joinComma (c2 :: t2) :=
        rfl
      rw [hj, List.append_assoc, List.cons_append,
        csvRun_start_cell_comma c row rows (joinComma (c2 :: t2) ++ '\r' :: '\n' :: rest),
        ih (row ++ [c]) (by simp) (Or.inl (by simp))]
      simp

theorem csvRun_record (cells : List (List Char)) (rows : List (List (List Char)))
    (rest : List Char) (hc : cells ≠ [[]]) :
    csvRun .start [] [] rows (recordChars cells ++ rest) =
      csvRun .start [] [] (rows ++ [cells]) rest := by
  cases cells with
  | nil =>
    rw [show recordChars [] = ['\r', '\n'] from rfl, List.cons_append,
      List.cons_append, List.nil_append, csvRun_start_crlf]
    simp
  | cons c t =>
    have h0 : recordChars (c :: t) ++ rest =
        joinComma (c :: t) ++ '\r' :: '\n' :: rest := by
      simp [recordChars]
    rw [h0, csvRun_cells (c :: t) [] rows rest (by simp) (Or.inr hc)]
    simp

theorem csvRun_writeAll (records : List (List (List Char)))
    (rows : List (List (List Char))) (h : ∀ r ∈ records, r ≠ [[]]) :
    csvRun .start [] [] rows (writeAll records) = some (rows ++ records) := by
  induction records generalizing rows with
  | nil => simp [writeAll, csvRun]
  | cons r t ih =>
    rw [writeAll, csvRun_record r rows (writeAll t) (h r (List.mem_cons_self r t)),
      ih (rows ++ [r]) (fun x hx => h x (List.mem_cons_of_mem r hx))]
    simp

/-- The core round trip: parsing a written CSV document recovers its records,
provided no record is the degenerate single empty cell (which the writer
serializes as a blank line, indistinguishable from an empty record). -/
theorem parseCsvChars_writeAll (records : List (List (List Char)))
    (h : ∀ r ∈ records, r ≠ [[]]) :
    parseCsvChars (writeAll records) = some records := by
  rw [parseCsvChars, csvRun_writeAll records [] h]
  simp

/-! ### Helper lemmas for the claim theorems -/

theorem listFlatMap_congr {α β : Type} (l : List α) (f g : α → List β)
    (h : ∀ x ∈ l, f x = g x) : listFlatMap f l = listFlatMap g l := by
  induction l with
  | nil => rfl
  | cons x t ih =>
    simp only [listFlatMap, h x (List.mem_cons_self x t),
      ih (fun y hy => h y (List.mem_cons_of_mem x hy))]

theorem listFlatMap_length {α β : Type} (f : α → List β) (l : List α) :
    (listFlatMap f l).length = (l.map (fun x => (f x).length)).sum := by
  induction l with
  | nil => rfl
  | cons x t ih => simp [listFlatMap, ih]

/-- On a dict with distinct keys, `pop` (erase the first occurrence) agrees
with dropping every entry with that key. -/
theorem eraseKey_eq_filter {α β : Type} [DecidableEq α]
    (d : List (α × β)) (k : α) (hnd : (d.map Prod.fst).Nodup) :
    eraseKey d k = d.filter (fun kv => !(kv.1 == k)) := by
  induction d with
  | nil => rfl
  | cons p t ih =>
    obtain ⟨a, b⟩ := p
    simp only [List.map_cons, List.nodup_cons] at hnd
    by_cases h : a = k
    · subst h
      have : t.filter (fun kv => !(kv.1 == a)) = t := by
        rw [List.filter_eq_self]
        intro q hq
        simp only [Bool.not_eq_eq_eq_not, Bool.not_true, beq_eq_false_iff_ne, ne_eq]
        intro hbad
        exact hnd.1 (hbad ▸ List.mem_map_of_mem Prod.fst hq)
      simp [eraseKey, List.filter_cons, this]
    · simp [eraseKey, h, List.filter_cons, ih hnd.2]

theorem map_mk_data_comp (g : String → String) (l : List String) :
    (l.map (fun f => (g f).data)).map (fun c => (⟨c⟩ : String)) = l.map g := by
  induction l with
  | nil => rfl
  | cons f t ih => simp only [List.map_cons, ih]

theorem map_data_eq_empty_singleton (l : List String) :
    l.map String.data = [[]] ↔ l = [""] := by
  constructor
  · intro h
    cases l with
    | nil => exact absurd h (by simp)
    | cons f t =>
      simp only [List.map_cons, List.cons.injEq, List.map_eq_nil_iff] at h
      obtain ⟨hf, ht⟩ := h
      rw [ht, show f = "" from String.ext (by rw [hf])]
  · intro h
    rw [h]
    rfl

theorem flattenGroup_of_obj (key : String) (pre : String → String) (d : Dict)
    (sub : Dict) (h : dlookup d key = some (.obj sub)) :
    flattenGroup key pre d =
      dictUpdate (eraseKey d key) (sub.map (fun kv => (pre kv.1, kv.2))) := by
  simp [flattenGroup, h]

theorem flattenGroup_not_obj (key : String) (pre : String → String) (d : Dict)
    (h : ∀ sub, dlookup d key ≠ some (.obj sub)) :
    flattenGroup key pre d = d := by
  unfold flattenGroup
  cases hd : dlookup d key with
  | none => rfl
  | some v =>
    cases v with
    | obj sub => exact absurd hd (h sub)
    | null => rfl
    | bool b => rfl
    | num n => rfl
    | str s => rfl
    | arr xs => rfl

theorem flattenGroup_lookup_preserve (key : String) (pre : String → String)
    (d : Dict) (k2 : String) (hkey : k2 ≠ key) (hpre : ∀ x, pre x ≠ k2) :
    dlookup (flattenGroup key pre d) k2 = dlookup d k2 := by
  unfold flattenGroup
  cases hd : dlookup d key with
  | none => rfl
  | some v =>
    cases v with
    | obj sub =>
      rw [dlookup_dictUpdate_ne _ _ _ (by
        intro p hp
        rcases List.mem_map.mp hp with ⟨kv, -, hkv⟩
        rw [← hkv]
        exact hpre kv.1)]
      exact dlookup_eraseKey_ne d key k2 hkey
    | null => rfl
    | bool b => rfl
    | num n => rfl
    | str s => rfl
    | arr xs => rfl

theorem nodup_keys_flattenGroup (key : String) (pre : String → String) (d : Dict)
    (hnd : (d.map Prod.fst).Nodup) :
    ((flattenGroup key pre d).map Prod.fst).Nodup := by
  unfold flattenGroup
  cases hd : dlookup d key with
  | none => exact hnd
  | some v =>
    cases v with
    | obj sub => exact nodup_keys_dictUpdate _ _ (nodup_keys_eraseKey d key hnd)
    | null => exact hnd
    | bool b => exact hnd
    | num n => exact hnd
    | str s => exact hnd
    | arr xs => exact hnd

theorem flattenOp_rows_of_not_truthy (op : Operation) (raw : Json)
    (h : truthy raw = false) : (flattenOp op raw).rows = [] := by
  cases raw with
  | null => cases op <;> rfl
  | bool b =>
    have hb : b = false := by simpa [truthy] using h
    subst hb
    cases op <;> rfl
  | num n => cases op <;> rfl
  | str s => cases op <;> rfl
  | arr xs => cases op <;> rfl
  | obj kvs =>
    have hk : kvs = [] := by simpa [truthy, List.isEmpty_iff] using h
    subst hk
    cases op <;> rfl

theorem flattenOp_rows_truthy (op : Operation) (raw : Json)
    (h : (flattenOp op raw).rows ≠ []) : truthy raw = true := by
  by_contra hbad
  exact h (flattenOp_rows_of_not_truthy op raw (by
    cases htr : truthy raw with
    | true => exact absurd htr hbad
    | false => rfl))

theorem flattenSiteDetails_fields_nil (raw : Json)
    (h : (flattenSiteDetails raw).rows = []) :
    (flattenSiteDetails raw).fields = [] := by
  cases raw with
  | obj entries =>
    cases hd : dlookup entries "details" with
    | none => simp [flattenSiteDetails, hd]
    | some v =>
      cases v with
      | obj d => simp [flattenSiteDetails, hd] at h
      | null => simp [flattenSiteDetails, hd]
      | bool b => simp [flattenSiteDetails, hd]
      | num n => simp [flattenSiteDetails, hd]
      | str s => simp [flattenSiteDetails, hd]
      | arr xs => simp [flattenSiteDetails, hd]
  | null => rfl
  | bool b => rfl
  | num n => rfl
  | str s => rfl
  | arr xs => rfl

theorem flattenValues_fields_nil (url : String) (raw : Json)
    (h : (flattenValues url raw).rows = []) :
    (flattenValues url raw).fields = [] := by
  cases raw with
  | obj entries =>
    cases h1 : dlookup entries url with
    | none => simp [flattenValues, h1]
    | some v =>
      cases v with
      | obj parent =>
        cases h2 : dlookup parent "values" with
        | none => simp [flattenValues, h1, h2]
        | some w =>
          cases w with
          | arr vs =>
            by_cases h3 : vs.isEmpty
            · simp [flattenValues, h1, h2, h3]
            · exfalso
              rw [show (flattenValues url (.obj entries)).rows =
                  vs.map (mergeObj
                    [("timeUnit", (dlookup parent "timeUnit").getD .null),
                     ("unit", (dlookup parent "unit").getD .null)]) from by
                simp [flattenValues, h1, h2, h3]] at h
              exact h3 (by simp [List.isEmpty_iff, List.map_eq_nil_iff.mp h])
          | null => simp [flattenValues, h1, h2]
          | bool b => simp [flattenValues, h1, h2]
          | num n => simp [flattenValues, h1, h2]
          | str s => simp [flattenValues, h1, h2]
          | obj o => simp [flattenValues, h1, h2]
      | null => simp [flattenValues, h1]
      | bool b => simp [flattenValues, h1]
      | num n => simp [flattenValues, h1]
      | str s => simp [flattenValues, h1]
      | arr xs => simp [flattenValues, h1]
  | null => rfl
  | bool b => rfl
  | num n => rfl
  | str s => rfl
  | arr xs => rfl

theorem flattenSensorList_fields_nil (raw : Json)
    (h : (flattenSensorList raw).rows = []) :
    (flattenSensorList raw).fields = [] := by
  cases raw with
  | obj entries =>
    cases h1 : dlookup entries "SiteSensors" with
    | none => simp [flattenSensorList, h1]
    | some v =>
      cases v with
      | obj ss =>
        cases h2 : dlookup ss "list" with
        | none => simp [flattenSensorList, h1, h2]
        | some w =>
          cases w with
          | arr gws =>
            by_cases h3 : gws.isEmpty
            · simp [flattenSensorList, h1, h2, h3]
            · rw [show (flattenSensorList (.obj entries)).fields =
                  if (flattenSensorList (.obj entries)).rows.isEmpty then []
                  else ["gateway", "name", "measurement", "type"] from by
                simp [flattenSensorList, h1, h2, h3]]
              simp [h]
          | null => simp [flattenSensorList, h1, h2]
          | bool b => simp [flattenSensorList, h1, h2]
          | num n => simp [flattenSensorList, h1, h2]
          | str s => simp [flattenSensorList, h1, h2]
          | obj o => simp [flattenSensorList, h1, h2]
      | null => simp [flattenSensorList, h1]
      | bool b => simp [flattenSensorList, h1]
      | num n => simp [flattenSensorList, h1]
      | str s => simp [flattenSensorList, h1]
      | arr xs => simp [flattenSensorList, h1]
  | null => rfl
  | bool b => rfl
  | num n => rfl
  | str s => rfl
  | arr xs => rfl

theorem flattenSensorData_fields_nil (raw : Json)
    (h : (flattenSensorData raw).rows = []) :
    (flattenSensorData raw).fields = [] := by
  cases raw with
  | obj entries =>
    cases h1 : dlookup entries "siteSensors" with
    | none => simp [flattenSensorData, h1]
    | some v =>
      cases v with
      | obj ss =>
        cases h2 : dlookup ss "data" with
        | none => simp [flattenSensorData, h1, h2]
        | some w =>
          cases w with
          | arr gws =>
            by_cases h3 : gws.isEmpty
            · simp [flattenSensorData, h1, h2, h3]
            · rw [show (flattenSensorData (.obj entries)).fields =
                  if (flattenSensorData (.obj entries)).rows.isEmpty then []
                  else ["gateway", "date", "measurement_type", "value"] from by
                simp [flattenSensorData, h1, h2, h3]]
              simp [h]
          | null => simp [flattenSensorData, h1, h2]
          | bool b => simp [flattenSensorData, h1, h2]
          | num n => simp [flattenSensorData, h1, h2]
          | str s => simp [flattenSensorData, h1, h2]
          | obj o => simp [flattenSensorData, h1, h2]
      | null => simp [flattenSensorData, h1]
      | bool b => simp [flattenSensorData, h1]
      | num n => simp [flattenSensorData, h1]
      | str s => simp [flattenSensorData, h1]
      | arr xs => simp [flattenSensorData, h1]
  | null => rfl
  | bool b => rfl
  | num n => rfl
  | str s => rfl
  | arr xs => rfl

theorem flattenMeters_fields_nil (raw : Json)
    (h : (flattenMeters raw).rows = []) :
    (flattenMeters raw).fields = [] := by
  cases raw with
  | obj entries =>
    cases h1 : dlookup entries "meterEnergyDetails" with
    | none => simp [flattenMeters, h1]
    | some v =>
      cases v with
      | obj med =>
        cases h2 : dlookup med "meters" with
        | none => simp [flattenMeters, h1, h2]
        | some w =>
          cases w with
          | arr meters =>
            by_cases h3 : meters.isEmpty
            · simp [flattenMeters, h1, h2, h3]
            · rw [show (flattenMeters (.obj entries)).fields =
                  if (flattenMeters (.obj entries)).rows.isEmpty then []
                  else ["date", "value", "meterSerialNumber", "model", "meterType",
                        "timeUnit", "unit"] from by
                simp [flattenMeters, h1, h2, h3]]
              simp [h]
          | null => simp [flattenMeters, h1, h2]
          | bool b => simp [flattenMeters, h1, h2]
          | num n => simp [flattenMeters, h1, h2]
          | str s => simp [flattenMeters, h1, h2]
          | obj o => simp [flattenMeters, h1, h2]
      | null => simp [flattenMeters, h1]
      | bool b => simp [flattenMeters, h1]
      | num n => simp [flattenMeters, h1]
      | str s => simp [flattenMeters, h1]
      | arr xs => simp [flattenMeters, h1]
  | null => rfl
  | bool b => rfl
  | num n => rfl
  | str s => rfl
  | arr xs => rfl

theorem flattenOp_fields_nil (op : Operation) (raw : Json)
    (h : (flattenOp op raw).rows = []) : (flattenOp op raw).fields = [] := by
  cases op with
  | siteDetails => exact flattenSiteDetails_fields_nil raw h
  | siteEnergy => exact flattenValues_fields_nil "energy" raw h
  | sitePower => exact flattenValues_fields_nil "power" raw h
  | sensorList => exact flattenSensorList_fields_nil raw h
  | sensorData => exact flattenSensorData_fields_nil raw h
  | metersData => exact flattenMeters_fields_nil raw h

/-! ### Claim theorems -/

theorem firstIndex_unique {l : List String} {u : String} {i i2 : Nat}
    (h1 : l[i]? = some u) (hf1 : ∀ j, j < i → l[j]? ≠ some u)
    (h2 : l[i2]? = some u) (hf2 : ∀ j, j < i2 → l[j]? ≠ some u) : i = i2 := by
  rcases Nat.lt_trichotomy i i2 with h | h | h
  · exact absurd h1 (hf2 i h)
  · exact h
  · exact absurd h2 (hf1 i2 h)

/-- C3: `authenticate(username, password)` returns true iff the lowercased
username occurs in the configured username list (at its first index `i`) and
the password equals the entry at the same index of the parallel password
list; every other pair — wrong password, unknown username, or an index
beyond the password list — returns the single failure outcome `false`; the
session `authenticated` flag is set to true only on success and left
unchanged on failure. -/
theorem c3_authenticate (us ps : List String) (u p : String) :
    (check_login us ps u p = true ↔
      ∃ i : Nat, us[i]? = some (pyLower u) ∧
        (∀ j, j < i → us[j]? ≠ some (pyLower u)) ∧ ps[i]? = some p) ∧
    (∀ flag, check_login us ps u p = false →
      loginSession us ps u p flag = (false, flag)) ∧
    (∀ flag, check_login us ps u p = true →
      loginSession us ps u p flag = (true, true)) := by
  refine ⟨?_, ?_, ?_⟩
  · cases hidx : pyIndex us (pyLower u) with
    | none =>
      have hck : check_login us ps u p = false := by
        simp [check_login, hidx]
      constructor
      · intro hc
        rw [hck] at hc
        exact Bool.noConfusion hc
      · rintro ⟨i, hget, hfirst, -⟩
        have hsome := (pyIndex_iff us (pyLower u) i).mpr ⟨hget, hfirst⟩
        rw [hidx] at hsome
        exact Option.noConfusion hsome
    | some i =>
      rcases (pyIndex_iff us (pyLower u) i).mp hidx with ⟨hget, hfirst⟩
      cases hp : ps[i]? with
      | none =>
        have hck : check_login us ps u p = false := by
          simp [check_login, hidx, hp]
        constructor
        · intro hc
          rw [hck] at hc
          exact Bool.noConfusion hc
        · rintro ⟨i2, hget2, hfirst2, hp2⟩
          have hi : i = i2 := firstIndex_unique hget hfirst hget2 hfirst2
          rw [← hi, hp] at hp2
          exact Option.noConfusion hp2
      | some q =>
        have hck : check_login us ps u p = (q == p) := by
          simp [check_login, hidx, hp]
        rw [hck]
        constructor
        · intro hq
          exact ⟨i, hget, hfirst, by rw [hp, show q = p from by simpa using hq]⟩
        · rintro ⟨i2, hget2, hfirst2, hp2⟩
          have hi : i = i2 := firstIndex_unique hget hfirst hget2 hfirst2
          rw [← hi, hp] at hp2
          simpa using (Option.some.inj hp2)
  · intro flag hfalse
    simp [loginSession, hfalse]
  · intro flag htrue
    simp [loginSession, htrue]

theorem c3_authenticate_witness :
    check_login ["alice", "bob"] ["pw1", "pw2"] "Alice" "pw1" = true ∧
    loginSession ["alice", "bob"] ["pw1", "pw2"] "Alice" "bad" false = (false, false) ∧
    check_login ["alice", "bob"] ["pw1"] "bob" "pw2" = false := by
  refine ⟨?_, ?_, by decide⟩
  · exact (c3_authenticate ["alice", "bob"] ["pw1", "pw2"] "Alice" "pw1").1.mpr
      ⟨0, by decide, fun j hj => absurd hj (Nat.not_lt_zero j), by decide⟩
  · exact (c3_authenticate ["alice", "bob"] ["pw1", "pw2"] "Alice" "bad").2.1
      false (by decide)

/-- C4: the gateway call classifies an HTTP-failure response as
`DateRangeTooLong` exactly when the status is 403 and the lowercased body
contains both substrings "date range" and "maximum"; any other 4xx/5xx
response classifies as `HttpError` with that status, and a transport-level
failure with no response classifies as `NetworkError`. -/
theorem c4_classify (status : Nat) (body : String)
    (_hrange : 400 ≤ status ∧ status ≤ 599) :
    (classifyFailure (.httpResponse status body) = .dateRangeTooLong ↔
      (status = 403 ∧
        (∃ pre post, (pyLower body).data = pre ++ "date range".data ++ post) ∧
        (∃ pre post, (pyLower body).data = pre ++ "maximum".data ++ post))) ∧
    (¬(status = 403 ∧
        (∃ pre post, (pyLower body).data = pre ++ "date range".data ++ post) ∧
        (∃ pre post, (pyLower body).data = pre ++ "maximum".data ++ post)) →
      classifyFailure (.httpResponse status body) = .httpError status) ∧
    classifyFailure .noResponse = .networkError := by
  have key : (status == 403 && containsSub (pyLower body).data ("date range".data)
        && containsSub (pyLower body).data ("maximum".data)) = true ↔
      (status = 403 ∧
        (∃ pre post, (pyLower body).data = pre ++ "date range".data ++ post) ∧
        (∃ pre post, (pyLower body).data = pre ++ "maximum".data ++ post)) := by
    simp [Bool.and_eq_true, containsSub_iff, and_assoc]
  refine ⟨?_, ?_, rfl⟩
  · constructor
    · intro h
      by_cases hcond : (status == 403
          && containsSub (pyLower body).data ("date range".data)
          && containsSub (pyLower body).data ("maximum".data)) = true
      · exact key.mp hcond
      · have hfalse : (status == 403
            && containsSub (pyLower body).data ("date range".data)
            && containsSub (pyLower body).data ("maximum".data)) = false := by
          cases hc2 : (status == 403
              && containsSub (pyLower body).data ("date range".data)
              && containsSub (pyLower body).data ("maximum".data)) with
          | true => exact absurd hc2 hcond
          | false => rfl
        simp [classifyFailure, hfalse] at h
    · intro hr
      have hcond := key.mpr hr
      simp [classifyFailure, hcond]
  · intro hnot
    have hcond : (status == 403
        && containsSub (pyLower body).data ("date range".data)
        && containsSub (pyLower body).data ("maximum".data)) = false := by
      cases hc : (status == 403
          && containsSub (pyLower body).data ("date range".data)
          && containsSub (pyLower body).data ("maximum".data)) with
      | true => exact absurd (key.mp hc) hnot
      | false => rfl
    simp [classifyFailure, hcond]

theorem c4_classify_witness :
    classifyFailure (.httpResponse 403 "The DATE RANGE exceeds the Maximum allowed") =
        .dateRangeTooLong ∧
    classifyFailure (.httpResponse 403 "forbidden") = .httpError 403 ∧
    classifyFailure (.httpResponse 500 "boom") = .httpError 500 ∧
    classifyFailure .noResponse = .networkError := by
  refine ⟨?_, ?_, ?_, rfl⟩
  · exact (c4_classify 403 "The DATE RANGE exceeds the Maximum allowed"
      (by decide)).1.mpr
      ⟨rfl, ⟨"the ".data, " exceeds the maximum allowed".data, by decide⟩,
        ⟨"the date range exceeds the ".data, " allowed".data, by decide⟩⟩
  · exact (c4_classify 403 "forbidden" (by decide)).2.1 (by
      rintro ⟨-, ⟨pre, post, hsplit⟩, -⟩
      have : containsSub (pyLower "forbidden").data ("date range".data) = true :=
        (containsSub_iff _ _).mpr ⟨pre, post, hsplit⟩
      exact absurd this (by decide))
  · exact (c4_classify 500 "boom" (by decide)).2.1 (by rintro ⟨h, -⟩; omega)

/-- C9: for every successful Generate action the filename base is
`solaredge_<siteId>_<operationSlug>`, followed by `_<timeUnit lowercased>`
exactly when the operation consumed a time-unit parameter, followed by
`_<MMDDYY>`, where the slug is the operation label lowercased with spaces
replaced by underscores; the CSV file adds `.csv` and the raw file adds
`_raw.json` to this base. -/
theorem c9_filenames (siteId : String) (op : Operation) (tu today : String) :
    csv_filename siteId op tu today = base_filename siteId op tu today ++ ".csv" ∧
    raw_filename siteId op tu today =
      base_filename siteId op tu today ++ "_raw.json" ∧
    base_filename siteId op tu today =
      "solaredge_" ++ siteId ++ "_" ++ replaceSpaces (pyLower (opLabel op)) ++
        (if consumesTimeUnit op then "_" ++ pyLower tu else "") ++ "_" ++ today ∧
    (consumesTimeUnit op = true ↔ (op = .siteEnergy ∨ op = .metersData)) := by
  refine ⟨rfl, rfl, ?_, ?_⟩
  · have hswap : pyLower (replaceSpaces (opLabel op)) =
        replaceSpaces (pyLower (opLabel op)) := by
      cases op <;> decide
    rw [base_filename, hswap]
  · cases op <;> simp [consumesTimeUnit]

/-- C2 (code defect): the flattening step mutates the raw response in
place.  For Site Details the `location` sub-object is popped from the shared
`details` dict before `json.dumps(api_data)` runs, so the serialized raw
JSON no longer contains it; for Sensor Data the `date` field of every
telemetry entry is popped likewise.  This theorem evaluates the embedded
code at the failing inputs, exhibiting the mutated raw values. -/
theorem c2_raw_mutation :
    (flattenOp .siteDetails
        (.obj [("details", .obj [("id", .num 1),
          ("location", .obj [("city", .str "X")])])])).rawAfter =
      .obj [("details", .obj [("id", .num 1), ("location_city", .str "X")])] ∧
    (flattenOp .siteDetails
        (.obj [("details", .obj [("id", .num 1),
          ("location", .obj [("city", .str "X")])])])).rawAfter ≠
      .obj [("details", .obj [("id", .num 1),
        ("location", .obj [("city", .str "X")])])] ∧
    (flattenOp .sensorData
        (.obj [("siteSensors", .obj [("data", .arr
          [.obj [("connectedTo", .str "GW1"), ("telemetries", .arr
            [.obj [("date", .str "2024-01-01"),
              ("temp", .num 5)]])]])])])).rawAfter =
      .obj [("siteSensors", .obj [("data", .arr
        [.obj [("connectedTo", .str "GW1"), ("telemetries", .arr
          [.obj [("temp", .num 5)]])]])])] ∧
    (flattenOp .sensorData
        (.obj [("siteSensors", .obj [("data", .arr
          [.obj [("connectedTo", .str "GW1"), ("telemetries", .arr
            [.obj [("date", .str "2024-01-01"),
              ("temp", .num 5)]])]])])])).rawAfter ≠
      .obj [("siteSensors", .obj [("data", .arr
        [.obj [("connectedTo", .str "GW1"), ("telemetries", .arr
          [.obj [("date", .str "2024-01-01"), ("temp", .num 5)]])]])])] := by
  decide

/-- Example rows for the CSV round trip: one row with a cell that needs
quoting plus an extra key outside the field list, and one row missing a
field. -/
def c5dataEx : List Dict :=
  [[("a", .str "x,\"y"), ("z", .num 3)], [("b", .null)]]

/-- C5 (counterexample): the round trip fails as universally stated.  A row
with no keys projected to the single field `a` must read back as `[""]`
(missing key rendered as an empty string), but the writer emits a blank
line for it, which the CSV reader returns as the empty record `[]` — as
Python's `csv` module does. -/
theorem c5_roundtrip_counterexample :
    parseCsvString (create_csv_string [[]] ["a"]) = some [["a"], []] ∧
    parseCsvString (create_csv_string [[]] ["a"]) ≠ some [["a"], [""]] := by
  decide

/-- C5 (amended): the produced CSV text is the Field List header followed by
one record per row in input order, row keys outside the Field List ignored
and absent Field List entries rendered as empty cells; parsing it back
recovers the header and the rows restricted to the Field List — provided
neither the Field List nor any projected row is the degenerate singleton
empty cell (which serializes as a blank line and reads back as an empty
record). -/
theorem map_mk_data (l : List String) :
    (l.map String.data).map (fun c => (⟨c⟩ : String)) = l := by
  induction l with
  | nil => rfl
  | cons f t ih => rw [List.map_cons, List.map_cons, ih]

theorem c5_roundtrip (data : List Dict) (fields : List String)
    (hhead : fields ≠ [""])
    (hrows : ∀ row ∈ data, fields.map (renderCell row) ≠ [""]) :
    parseCsvString (create_csv_string data fields) =
      some (fields :: data.map (fun row => fields.map (renderCell row))) := by
  have hrec : ∀ r ∈ ((fields.map String.data) ::
      data.map (fun row => fields.map (fun f => (renderCell row f).data))),
      r ≠ [[]] := by
    intro r hr
    rcases List.mem_cons.mp hr with hh | ht
    · subst hh
      intro hbad
      exact hhead ((map_data_eq_empty_singleton fields).mp hbad)
    · rcases List.mem_map.mp ht with ⟨row, hrow, hproj⟩
      subst hproj
      intro hbad
      rw [show fields.map (fun f => (renderCell row f).data) =
          (fields.map (renderCell row)).map String.data from by
        rw [List.map_map]; rfl] at hbad
      exact hrows row hrow
        ((map_data_eq_empty_singleton (fields.map (renderCell row))).mp hbad)
  have hparse := parseCsvChars_writeAll _ hrec
  rw [parseCsvString, show (create_csv_string data fields).data =
      writeAll ((fields.map String.data) ::
        data.map (fun row => fields.map (fun f => (renderCell row f).data)))
    from rfl, hparse]
  simp only [Option.map_some', List.map_cons]
  congr 1
  congr 1
  · exact map_mk_data fields
  · rw [List.map_map]
    apply List.map_congr_left
    intro row hrow
    exact map_mk_data_comp (renderCell row) fields

theorem c5_roundtrip_witness :
    (["a", "b"] ≠ [""]) ∧
    parseCsvString (create_csv_string c5dataEx ["a", "b"]) =
      some (["a", "b"] ::
        c5dataEx.map (fun row => ["a", "b"].map (renderCell row))) :=
  ⟨by decide, c5_roundtrip c5dataEx ["a", "b"] (by decide) (by decide)⟩

/-- C7: the export bundle is offered iff the API call succeeded and
flattening produced at least one row; a failed call gives the (already
reported) error outcome; a successful call whose flattening is empty gives
the "no data" warning with an empty field list, an outcome distinct from
the error outcome. -/
theorem c7_export_gate (op : Operation) (r : Option Json) :
    (generate op r = .apiError ↔ r = none) ∧
    (∀ raw, r = some raw →
      ((∃ ra rows fs, generate op r = .offered ra rows fs) ↔
        (flattenOp op raw).rows ≠ [])) ∧
    (∀ raw, r = some raw → (flattenOp op raw).rows = [] →
      generate op r = .noData) ∧
    (∀ raw, (flattenOp op raw).rows = [] → (flattenOp op raw).fields = []) ∧
    (Outcome.noData ≠ Outcome.apiError) := by
  refine ⟨?_, ?_, ?_, fun raw h => flattenOp_fields_nil op raw h, by decide⟩
  · cases r with
    | none => simp [generate]
    | some raw =>
      simp only [generate]
      constructor
      · intro hbad
        by_cases hc : (truthy raw && !(flattenOp op raw).rows.isEmpty) = true
        · rw [if_pos hc] at hbad
          exact Outcome.noConfusion hbad
        · rw [if_neg hc] at hbad
          exact Outcome.noConfusion hbad
      · intro hbad
        exact Option.noConfusion hbad
  · rintro raw rfl
    simp only [generate]
    constructor
    · rintro ⟨ra, rows, fs, hoff⟩
      intro hnil
      have hcond : (truthy raw && !(flattenOp op raw).rows.isEmpty) = false := by
        simp [hnil]
      rw [if_neg (by simp [hcond])] at hoff
      exact Outcome.noConfusion hoff
    · intro hne
      have htr : truthy raw = true := flattenOp_rows_truthy op raw hne
      have hcond : (truthy raw && !(flattenOp op raw).rows.isEmpty) = true := by
        simp [htr, List.isEmpty_iff, hne]
      rw [if_pos (by simp [hcond])]
      exact ⟨_, _, _, rfl⟩
  · rintro raw rfl hnil
    simp only [generate]
    have hcond : (truthy raw && !(flattenOp op raw).rows.isEmpty) = false := by
      simp [hnil]
    rw [if_neg (by simp [hcond])]

/-- A successful Site Energy response used by the C7 witness. -/
def c7rawEnergy : Json :=
  .obj [("energy", .obj [("timeUnit", .str "DAY"), ("unit", .str "Wh"),
    ("values", .arr [.obj [("date", .str "2024-01-01"), ("value", .num 5)]])])]

theorem c7_export_gate_witness :
    (∃ ra rows fs, generate .siteEnergy (some c7rawEnergy) = .offered ra rows fs) ∧
    generate .siteEnergy none = .apiError ∧
    generate .siteEnergy (some (.obj [("energy", .obj [("values", .arr [])])])) =
      .noData :=
  ⟨((c7_export_gate .siteEnergy (some c7rawEnergy)).2.1 c7rawEnergy rfl).mpr
      (by decide),
    (c7_export_gate .siteEnergy none).1.mpr rfl,
    (c7_export_gate .siteEnergy
        (some (.obj [("energy", .obj [("values", .arr [])])]))).2.2.1
      _ rfl (by decide)⟩

/-- C8: for Site Energy (resp. Site Power) the flattener takes the `values`
array under the `energy` (resp. `power`) response key and produces one row
per element, each element merged over the `{timeUnit, unit}` pair pulled
from the parent object, with the fixed field list
`[date, value, timeUnit, unit]`. -/
theorem c8_values_flatten (op : Operation) (hop : op = .siteEnergy ∨ op = .sitePower)
    (entries parent : Dict) (vs : List Json)
    (hurl : dlookup entries (urlOf op) = some (.obj parent))
    (hvals : dlookup parent "values" = some (.arr vs))
    (hvs : vs ≠ []) :
    (flattenOp op (.obj entries)).rows =
      vs.map (mergeObj
        [("timeUnit", (dlookup parent "timeUnit").getD .null),
         ("unit", (dlookup parent "unit").getD .null)]) ∧
    (flattenOp op (.obj entries)).rows.length = vs.length ∧
    (flattenOp op (.obj entries)).fields = ["date", "value", "timeUnit", "unit"] := by
  have hvsE : vs.isEmpty = false := by simpa [List.isEmpty_iff] using hvs
  rcases hop with rfl | rfl <;>
    simp only [urlOf] at hurl <;>
    refine ⟨?_, ?_, ?_⟩ <;>
    simp [flattenOp, flattenValues, hurl, hvals, hvsE]

/-- The Site Energy response entries used by the C8 witness. -/
def c8entries : Dict :=
  [("energy", .obj [("timeUnit", .str "DAY"), ("unit", .str "Wh"),
    ("values", .arr [.obj [("date", .str "2024-01-01"), ("value", .num 5)]])])]

theorem c8_values_flatten_witness :
    (flattenOp .siteEnergy (.obj c8entries)).rows =
      [[("timeUnit", .str "DAY"), ("unit", .str "Wh"),
        ("date", .str "2024-01-01"), ("value", .num 5)]] ∧
    (flattenOp .siteEnergy (.obj c8entries)).rows.length = 1 ∧
    (flattenOp .siteEnergy (.obj c8entries)).fields =
      ["date", "value", "timeUnit", "unit"] := by
  have h := c8_values_flatten .siteEnergy (Or.inl rfl) c8entries
    [("timeUnit", .str "DAY"), ("unit", .str "Wh"),
      ("values", .arr [.obj [("date", .str "2024-01-01"), ("value", .num 5)]])]
    [.obj [("date", .str "2024-01-01"), ("value", .num 5)]]
    (by decide) (by decide) (by decide)
  exact ⟨h.1.trans (by decide), h.2.1.trans (by decide), h.2.2⟩

/-- C6: for every Sensor Data response the flattener emits, for each gateway
and each telemetry entry of that gateway, exactly one row per non-date field
of the entry, of the form
`{gateway: parent connectedTo, date: entry date, measurement_type: field
name, value: field value}`; the row count is the total number of non-date
fields. -/
theorem c6_sensor_rows (entries ss : Dict) (gws : List Json)
    (h1 : dlookup entries "siteSensors" = some (.obj ss))
    (h2 : dlookup ss "data" = some (.arr gws))
    (h3 : gws ≠ [])
    (h4 : ∀ gw ∈ gws, ∀ t ∈ jgetArrD gw "telemetries",
      ((objEntriesD t).map Prod.fst).Nodup) :
    (flattenOp .sensorData (.obj entries)).rows =
      listFlatMap (fun gw =>
        listFlatMap (fun t =>
          ((objEntriesD t).filter (fun kv => !(kv.1 == "date"))).map (fun kv =>
            ([("gateway", jgetD gw "connectedTo"),
              ("date", (dlookup (objEntriesD t) "date").getD .null),
              ("measurement_type", .str kv.1), ("value", kv.2)] : Dict)))
          (jgetArrD gw "telemetries")) gws ∧
    (flattenOp .sensorData (.obj entries)).rows.length =
      (gws.map (fun gw =>
        ((jgetArrD gw "telemetries").map (fun t =>
          ((objEntriesD t).filter (fun kv => !(kv.1 == "date"))).length)).sum)).sum := by
  have hE : gws.isEmpty = false := by simpa [List.isEmpty_iff] using h3
  have hrows : (flattenOp .sensorData (.obj entries)).rows =
      listFlatMap gwRows gws := by
    simp [flattenOp, flattenSensorData, h1, h2, hE]
  have hcong : listFlatMap gwRows gws =
      listFlatMap (fun gw =>
        listFlatMap (fun t =>
          ((objEntriesD t).filter (fun kv => !(kv.1 == "date"))).map (fun kv =>
            ([("gateway", jgetD gw "connectedTo"),
              ("date", (dlookup (objEntriesD t) "date").getD .null),
              ("measurement_type", .str kv.1), ("value", kv.2)] : Dict)))
          (jgetArrD gw "telemetries")) gws := by
    apply listFlatMap_congr
    intro gw hgw
    simp only [gwRows]
    apply listFlatMap_congr
    intro t ht
    cases t with
    | obj td =>
      have hnd := h4 gw hgw (.obj td) ht
      simp only [objEntriesD] at hnd ⊢
      rw [eraseKey_eq_filter td "date" hnd]
    | null => rfl
    | bool b => rfl
    | num n => rfl
    | str s => rfl
    | arr xs => rfl
  constructor
  · rw [hrows, hcong]
  · rw [hrows, hcong, listFlatMap_length]
    congr 1
    apply List.map_congr_left
    intro gw hgw
    rw [listFlatMap_length]
    congr 1
    apply List.map_congr_left
    intro t ht
    rw [List.length_map]

/-- The gateway object of the C6 witness (the example of the claim). -/
def c6gw : Json :=
  .obj [("connectedTo", .str "GW1"), ("telemetries", .arr
    [.obj [("date", .str "2024-01-01"), ("temp", .num 5), ("irr", .num 100)]])]

theorem c6_sensor_rows_witness :
    (flattenOp .sensorData
        (.obj [("siteSensors", .obj [("data", .arr [c6gw])])])).rows =
      [[("gateway", .str "GW1"), ("date", .str "2024-01-01"),
        ("measurement_type", .str "temp"), ("value", .num 5)],
       [("gateway", .str "GW1"), ("date", .str "2024-01-01"),
        ("measurement_type", .str "irr"), ("value", .num 100)]] ∧
    (flattenOp .sensorData
        (.obj [("siteSensors", .obj [("data", .arr [c6gw])])])).rows.length = 2 := by
  have h := c6_sensor_rows [("siteSensors", .obj [("data", .arr [c6gw])])]
    [("data", .arr [c6gw])] [c6gw] (by decide) (by decide) (by decide) (by decide)
  exact ⟨h.1.trans (by decide), h.2.trans (by decide)⟩

/-- C10 (counterexample): a successful list call whose `sites.site` array is
empty yields the empty table, not the `{"No sites found": None}` fallback
the claim describes for "returns no sites". -/
theorem c10_empty_sites_counterexample :
    get_all_sites (some (.obj [("sites", .obj [("site", .arr [])])])) = [] ∧
    get_all_sites (some (.obj [("sites", .obj [("site", .arr [])])])) ≠
      noSitesTable := by
  decide

/-- C10 (amended): the site table is built by iterating the fetched site
list in ascending name order, mapping each site's name to its id, so
duplicate names keep exactly one entry whose id is that of the last such
site in the sorted iteration order; when the list call fails or the
response lacks the `sites`/`site` structure the table is the single
fallback entry; a successful call with an empty site list yields the empty
table. -/
theorem c10_site_table :
    get_all_sites none = noSitesTable ∧
    (∀ entries ss l, dlookup entries "sites" = some (.obj ss) →
      dlookup ss "site" = some (.arr l) →
      get_all_sites (some (.obj entries)) = buildSiteTable l ∧
      ((buildSiteTable l).map Prod.fst).Nodup ∧
      (∀ n, dlookup (buildSiteTable l) n =
        ((sortedSiteList l).filter (fun s => jgetD s "name" == n)).getLast?.map
          (fun s => jgetD s "id")) ∧
      List.Sorted jsonNameLe (sortedSiteList l) ∧
      (sortedSiteList l).Perm l) ∧
    buildSiteTable [] = [] := by
  refine ⟨rfl, ?_, rfl⟩
  intro entries ss l h1 h2
  have hne : entries ≠ [] := by
    intro hb
    rw [hb] at h1
    exact Option.noConfusion h1
  have htr : truthy (.obj entries) = true := by
    cases entries with
    | nil => exact absurd rfl hne
    | cons a t => rfl
  have hga : get_all_sites (some (.obj entries)) = buildSiteTable l := by
    simp [get_all_sites, htr, h1, h2]
  have hbuild : buildSiteTable l =
      dictUpdate []
        ((sortedSiteList l).map (fun s => (jgetD s "name", jgetD s "id"))) := by
    rw [buildSiteTable, dictUpdate, List.foldl_map]
  refine ⟨hga, ?_, ?_, ?_, List.perm_insertionSort jsonNameLe l⟩
  · rw [hbuild]
    exact nodup_keys_dictUpdate _ _ (by simp)
  · intro n
    rw [hbuild, dlookup_dictUpdate]
    have hfm : ((sortedSiteList l).map
          (fun s => (jgetD s "name", jgetD s "id"))).filter (fun p => p.1 == n) =
        ((sortedSiteList l).filter (fun s => jgetD s "name" == n)).map
          (fun s => (jgetD s "name", jgetD s "id")) := by
      rw [List.filter_map]
      rfl
    rw [hfm, List.getLast?_map]
    cases hl : ((sortedSiteList l).filter (fun s => jgetD s "name" == n)).getLast?
      with
    | some s => simp
    | none => simp [dlookup]
  · haveI : IsTotal Json jsonNameLe :=
      ⟨fun a b => strLe_total (siteName a) (siteName b)⟩
    haveI : IsTrans Json jsonNameLe := ⟨fun a b c hab hbc => strLe_trans hab hbc⟩
    exact List.sorted_insertionSort jsonNameLe l

/-- Two sites sharing the display name "A", used by the C10 witness. -/
def c10dupSites : List Json :=
  [.obj [("name", .str "A"), ("id", .num 1)],
   .obj [("name", .str "A"), ("id", .num 2)]]

theorem c10_site_table_witness :
    get_all_sites (some (.obj [("sites", .obj [("site", .arr c10dupSites)])])) =
      buildSiteTable c10dupSites ∧
    buildSiteTable c10dupSites = [(.str "A", .num 2)] ∧
    get_all_sites none = noSitesTable := by
  have h := (c10_site_table).2.1 [("sites", .obj [("site", .arr c10dupSites)])]
    [("site", .arr c10dupSites)] c10dupSites (by decide) (by decide)
  exact ⟨h.1, by decide, (c10_site_table).1⟩

/-! ### Prefix disjointness facts for the SiteDetails flattening -/

theorem locPre_ne_location (x : String) : "location_" ++ x ≠ "location" :=
  append_ne_of_not_leads "location_" "location" (by decide) x

theorem locPre_ne_pS (x : String) : "location_" ++ x ≠ "publicSettings" :=
  append_ne_of_not_leads "location_" "publicSettings" (by decide) x

theorem locPre_ne_uris (x : String) : "location_" ++ x ≠ "uris" :=
  append_ne_of_not_leads "location_" "uris" (by decide) x

theorem pubPre_ne_location (x : String) : "public_" ++ x ≠ "location" :=
  append_ne_of_not_leads "public_" "location" (by decide) x

theorem pubPre_ne_pS (x : String) : "public_" ++ x ≠ "publicSettings" :=
  append_ne_of_not_leads "public_" "publicSettings" (by decide) x

theorem pubPre_ne_uris (x : String) : "public_" ++ x ≠ "uris" :=
  append_ne_of_not_leads "public_" "uris" (by decide) x

theorem uriPre_ne_location (x : String) : "uri_" ++ x ≠ "location" :=
  append_ne_of_not_leads "uri_" "location" (by decide) x

theorem uriPre_ne_pS (x : String) : "uri_" ++ x ≠ "publicSettings" :=
  append_ne_of_not_leads "uri_" "publicSettings" (by decide) x

theorem uriPre_ne_uris (x : String) : "uri_" ++ x ≠ "uris" :=
  append_ne_of_not_leads "uri_" "uris" (by decide) x

theorem pubPre_ne_locPre (x k : String) : "public_" ++ x ≠ "location_" ++ k :=
  append_ne_append_head "public_" "location_" 'p' 'l'
    (by decide) (by decide) (by decide) x k

theorem uriPre_ne_locPre (x k : String) : "uri_" ++ x ≠ "location_" ++ k :=
  append_ne_append_head "uri_" "location_" 'u' 'l'
    (by decide) (by decide) (by decide) x k

theorem uriPre_ne_pubPre (x k : String) : "uri_" ++ x ≠ "public_" ++ k :=
  append_ne_append_head "uri_" "public_" 'u' 'p'
    (by decide) (by decide) (by decide) x k

/-- Either an optional JSON value is no object, or it is one. -/
theorem opt_not_obj (w : Option Json) :
    (∀ sub, w ≠ some (.obj sub)) ∨ (∃ sub, w = some (.obj sub)) := by
  cases w with
  | none => exact Or.inl (fun sub h => Option.noConfusion h)
  | some v =>
    cases v with
    | obj sub => exact Or.inr ⟨sub, rfl⟩
    | null => exact Or.inl (fun sub h => Json.noConfusion (Option.some.inj h))
    | bool b => exact Or.inl (fun sub h => Json.noConfusion (Option.some.inj h))
    | num n => exact Or.inl (fun sub h => Json.noConfusion (Option.some.inj h))
    | str s => exact Or.inl (fun sub h => Json.noConfusion (Option.some.inj h))
    | arr xs => exact Or.inl (fun sub h => Json.noConfusion (Option.some.inj h))

/-- C1: for every raw response whose `details` value is an object, the Site
Details flattening produces exactly one row; each of the `location`,
`publicSettings`, `uris` sub-objects present as objects is removed (its key
no longer occurs) and its members are re-inserted as top-level keys
prefixed `location_`, `public_` and `uri_<lower_snake_key>`; the Field List
is sorted and is a permutation of the flat row's key set; and the dict
transform is idempotent. -/
theorem c1_site_details (entries : Dict) (d : Dict)
    (hd : dlookup entries "details" = some (.obj d))
    (hnd : (d.map Prod.fst).Nodup) :
    (flattenOp .siteDetails (.obj entries)).rows = [flattenDetailsDict d] ∧
    List.Sorted strLe (flattenOp .siteDetails (.obj entries)).fields ∧
    (flattenOp .siteDetails (.obj entries)).fields.Perm
      ((flattenDetailsDict d).map Prod.fst) ∧
    (∀ L, dlookup d "location" = some (.obj L) →
      dlookup (flattenDetailsDict d) "location" = none ∧
      ((L.map Prod.fst).Nodup → ∀ k v, (k, v) ∈ L →
        dlookup (flattenDetailsDict d) ("location_" ++ k) = some v)) ∧
    (∀ P, dlookup d "publicSettings" = some (.obj P) →
      dlookup (flattenDetailsDict d) "publicSettings" = none ∧
      ((P.map Prod.fst).Nodup → ∀ k v, (k, v) ∈ P →
        dlookup (flattenDetailsDict d) ("public_" ++ k) = some v)) ∧
    (∀ U, dlookup d "uris" = some (.obj U) →
      dlookup (flattenDetailsDict d) "uris" = none ∧
      ((U.map (fun kv => "uri_" ++ snakeKey kv.1)).Nodup → ∀ k v, (k, v) ∈ U →
        dlookup (flattenDetailsDict d) ("uri_" ++ snakeKey k) = some v)) ∧
    flattenDetailsDict (flattenDetailsDict d) = flattenDetailsDict d := by
  have hrows : (flattenOp .siteDetails (.obj entries)).rows =
      [flattenDetailsDict d] := by
    simp [flattenOp, flattenSiteDetails, hd]
  have hfields : (flattenOp .siteDetails (.obj entries)).fields =
      sortStr ((flattenDetailsDict d).map Prod.fst) := by
    simp [flattenOp, flattenSiteDetails, hd]
  set d1 := flattenGroup "location" (fun k => "location_" ++ k) d with hd1def
  set d2 := flattenGroup "publicSettings" (fun k => "public_" ++ k) d1 with hd2def
  have hflatd : flattenDetailsDict d =
      flattenGroup "uris" (fun k => "uri_" ++ snakeKey k) d2 := rfl
  have hnd1 : (d1.map Prod.fst).Nodup := by
    rw [hd1def]
    exact nodup_keys_flattenGroup _ _ _ hnd
  have hnd2 : (d2.map Prod.fst).Nodup := by
    rw [hd2def]
    exact nodup_keys_flattenGroup _ _ _ hnd1
  have hP1 : dlookup d1 "publicSettings" = dlookup d "publicSettings" := by
    rw [hd1def]
    exact flattenGroup_lookup_preserve _ _ _ _ (by decide) locPre_ne_pS
  have hU1 : dlookup d1 "uris" = dlookup d "uris" := by
    rw [hd1def]
    exact flattenGroup_lookup_preserve _ _ _ _ (by decide) locPre_ne_uris
  have hU2 : dlookup d2 "uris" = dlookup d1 "uris" := by
    rw [hd2def]
    exact flattenGroup_lookup_preserve _ _ _ _ (by decide) pubPre_ne_uris
  -- where "location" ends up
  have hLocNone : ∀ L, dlookup d "location" = some (.obj L) →
      dlookup (flattenDetailsDict d) "location" = none := by
    intro L hL
    have hnone1 : dlookup d1 "location" = none := by
      rw [hd1def, flattenGroup_of_obj _ _ _ _ hL, dlookup_dictUpdate_ne]
      · exact dlookup_eraseKey_self d "location" hnd
      · intro p hp
        rcases List.mem_map.mp hp with ⟨kv, -, hkv⟩
        rw [← hkv]
        exact locPre_ne_location kv.1
    have hnone2 : dlookup d2 "location" = none := by
      rw [hd2def,
        flattenGroup_lookup_preserve _ _ _ _ (by decide) pubPre_ne_location]
      exact hnone1
    rw [hflatd,
      flattenGroup_lookup_preserve _ _ _ _ (by decide)
        (fun x => uriPre_ne_location (snakeKey x))]
    exact hnone2
  have hLocPreserve : (∀ sub, dlookup d "location" ≠ some (.obj sub)) →
      dlookup (flattenDetailsDict d) "location" = dlookup d "location" := by
    intro hno
    rw [hflatd,
      flattenGroup_lookup_preserve _ _ _ _ (by decide)
        (fun x => uriPre_ne_location (snakeKey x)),
      hd2def,
      flattenGroup_lookup_preserve _ _ _ _ (by decide) pubPre_ne_location,
      hd1def, flattenGroup_not_obj _ _ _ hno]
  -- where "publicSettings" ends up
  have hPSNone : ∀ P, dlookup d "publicSettings" = some (.obj P) →
      dlookup (flattenDetailsDict d) "publicSettings" = none := by
    intro P hP
    have hnone2 : dlookup d2 "publicSettings" = none := by
      rw [hd2def, flattenGroup_of_obj _ _ _ _ (hP1.trans hP), dlookup_dictUpdate_ne]
      · exact dlookup_eraseKey_self d1 "publicSettings" hnd1
      · intro p hp
        rcases List.mem_map.mp hp with ⟨kv, -, hkv⟩
        rw [← hkv]
        exact pubPre_ne_pS kv.1
    rw [hflatd, flattenGroup_lookup_preserve _ _ _ _ (by decide)
        (fun x => uriPre_ne_pS (snakeKey x))]
    exact hnone2
  have hPSPreserve : (∀ sub, dlookup d "publicSettings" ≠ some (.obj sub)) →
      dlookup (flattenDetailsDict d) "publicSettings" =
        dlookup d "publicSettings" := by
    intro hno
    have hno1 : ∀ sub, dlookup d1 "publicSettings" ≠ some (.obj sub) := by
      intro sub hb
      rw [hP1] at hb
      exact hno sub hb
    rw [hflatd, flattenGroup_lookup_preserve _ _ _ _ (by decide)
        (fun x => uriPre_ne_pS (snakeKey x)),
      hd2def, flattenGroup_not_obj _ _ _ hno1]
    exact hP1
  -- where "uris" ends up
  have hUNone : ∀ U, dlookup d "uris" = some (.obj U) →
      dlookup (flattenDetailsDict d) "uris" = none := by
    intro U hU
    rw [hflatd, flattenGroup_of_obj _ _ _ _ (hU2.trans (hU1.trans hU)),
      dlookup_dictUpdate_ne]
    · exact dlookup_eraseKey_self d2 "uris" hnd2
    · intro p hp
      rcases List.mem_map.mp hp with ⟨kv, -, hkv⟩
      rw [← hkv]
      exact uriPre_ne_uris (snakeKey kv.1)
  have hUPreserve : (∀ sub, dlookup d "uris" ≠ some (.obj sub)) →
      dlookup (flattenDetailsDict d) "uris" = dlookup d "uris" := by
    intro hno
    have hno2 : ∀ sub, dlookup d2 "uris" ≠ some (.obj sub) := by
      intro sub hb
      rw [hU2, hU1] at hb
      exact hno sub hb
    rw [hflatd, flattenGroup_not_obj _ _ _ hno2, hU2, hU1]
  refine ⟨hrows, ?_, ?_, ?_, ?_, ?_, ?_⟩
  · rw [hfields]
    haveI : IsTotal String strLe := ⟨strLe_total⟩
    haveI : IsTrans String strLe := ⟨fun a b c hab hbc => strLe_trans hab hbc⟩
    exact List.sorted_insertionSort strLe _
  · rw [hfields]
    exact List.perm_insertionSort strLe _
  · intro L hL
    refine ⟨hLocNone L hL, ?_⟩
    intro hLnd k v hkv
    have hk1 : dlookup d1 ("location_" ++ k) = some v := by
      rw [hd1def, flattenGroup_of_obj _ _ _ _ hL]
      apply dlookup_dictUpdate_mem
      · have hkeys : (L.map (fun kv => ("location_" ++ kv.1, kv.2))).map Prod.fst =
            (L.map Prod.fst).map (fun x => "location_" ++ x) := by
          rw [List.map_map, List.map_map]
          rfl
        rw [hkeys]
        exact hLnd.map (fun a b h => append_right_inj "location_" h)
      · exact List.mem_map_of_mem _ hkv
    have hk2 : dlookup d2 ("location_" ++ k) = some v := by
      rw [hd2def, flattenGroup_lookup_preserve _ _ _ _ (locPre_ne_pS k)
        (fun x => pubPre_ne_locPre x k)]
      exact hk1
    rw [hflatd, flattenGroup_lookup_preserve _ _ _ _ (locPre_ne_uris k)
      (fun x => uriPre_ne_locPre (snakeKey x) k)]
    exact hk2
  · intro P hP
    refine ⟨hPSNone P hP, ?_⟩
    intro hPnd k v hkv
    have hk2 : dlookup d2 ("public_" ++ k) = some v := by
      rw [hd2def, flattenGroup_of_obj _ _ _ _ (hP1.trans hP)]
      apply dlookup_dictUpdate_mem
      · have hkeys : (P.map (fun kv => ("public_" ++ kv.1, kv.2))).map Prod.fst =
            (P.map Prod.fst).map (fun x => "public_" ++ x) := by
          rw [List.map_map, List.map_map]
          rfl
        rw [hkeys]
        exact hPnd.map (fun a b h => append_right_inj "public_" h)
      · exact List.mem_map_of_mem _ hkv
    rw [hflatd, flattenGroup_lookup_preserve _ _ _ _ (pubPre_ne_uris k)
      (fun x => uriPre_ne_pubPre (snakeKey x) k)]
    exact hk2
  · intro U hU
    refine ⟨hUNone U hU, ?_⟩
    intro hUnd k v hkv
    rw [hflatd, flattenGroup_of_obj _ _ _ _ (hU2.trans (hU1.trans hU))]
    apply dlookup_dictUpdate_mem
    · have hkeys : (U.map (fun kv => ("uri_" ++ snakeKey kv.1, kv.2))).map Prod.fst =
          U.map (fun kv => "uri_" ++ snakeKey kv.1) := by
        rw [List.map_map]
        rfl
      rw [hkeys]
      exact hUnd
    · exact List.mem_map_of_mem _ hkv
  · -- idempotence of the dict transform
    have hXloc : ∀ sub,
        dlookup (flattenDetailsDict d) "location" ≠ some (.obj sub) := by
      rcases opt_not_obj (dlookup d "location") with hno | ⟨L, hL⟩
      · intro sub hbad
        rw [hLocPreserve hno] at hbad
        exact hno sub hbad
      · intro sub hbad
        rw [hLocNone L hL] at hbad
        exact Option.noConfusion hbad
    have hXps : ∀ sub,
        dlookup (flattenDetailsDict d) "publicSettings" ≠ some (.obj sub) := by
      rcases opt_not_obj (dlookup d "publicSettings") with hno | ⟨P, hP⟩
      · intro sub hbad
        rw [hPSPreserve hno] at hbad
        exact hno sub hbad
      · intro sub hbad
        rw [hPSNone P hP] at hbad
        exact Option.noConfusion hbad
    have hXuris : ∀ sub,
        dlookup (flattenDetailsDict d) "uris" ≠ some (.obj sub) := by
      rcases opt_not_obj (dlookup d "uris") with hno | ⟨U, hU⟩
      · intro sub hbad
        rw [hUPreserve hno] at hbad
        exact hno sub hbad
      · intro sub hbad
        rw [hUNone U hU] at hbad
        exact Option.noConfusion hbad
    show flattenGroup "uris" (fun k => "uri_" ++ snakeKey k)
        (flattenGroup "publicSettings" (fun k => "public_" ++ k)
          (flattenGroup "location" (fun k => "location_" ++ k)
            (flattenDetailsDict d))) = flattenDetailsDict d
    rw [flattenGroup_not_obj _ _ _ hXloc, flattenGroup_not_obj _ _ _ hXps,
      flattenGroup_not_obj _ _ _ hXuris]

/-- The example of the claim: raw `{"details": {"id": 1, "location":
{"city": "X"}}}`. -/
def c1exampleDetails : Dict :=
  [("id", .num 1), ("location", .obj [("city", .str "X")])]

theorem c1_site_details_witness :
    (flattenOp .siteDetails
        (.obj [("details", .obj c1exampleDetails)])).rows =
      [[("id", .num 1), ("location_city", .str "X")]] ∧
    (flattenOp .siteDetails
        (.obj [("details", .obj c1exampleDetails)])).fields =
      ["id", "location_city"] ∧
    dlookup (flattenDetailsDict c1exampleDetails) "location" = none ∧
    dlookup (flattenDetailsDict c1exampleDetails) "location_city" =
      some (.str "X") ∧
    flattenDetailsDict (flattenDetailsDict c1exampleDetails) =
      flattenDetailsDict c1exampleDetails := by
  have h := c1_site_details [("details", .obj c1exampleDetails)] c1exampleDetails
    (by decide) (by decide)
  have hloc := h.2.2.2.1 [("city", .str "X")] (by decide)
  exact ⟨h.1.trans (by decide), by decide, hloc.1,
    hloc.2 (by decide) "city" (.str "X") (by decide), h.2.2.2.2.2.2⟩
